import Mathlib

/-!
Verification of the streaming preprocessing engine in
`src/utils/preprocessing.py` (CMS_Deep_Learning).

Shallow embedding conventions:
* Python floats are modelled as exact rationals (`ℚ`); the claims checked
  here concern structural behaviour (shapes, window arithmetic, branch
  conditions), not rounding of IEEE values.
* Python `int(x)` (truncation toward zero) is `pyInt`;
  `int(np.ceil(x))` is `Int.ceil`.
* `np.random.shuffle` is modelled by an oracle `rng` together with the
  hypothesis that it permutes its input.
* `np.argsort` on a column followed by fancy indexing (`x[idx]`) is
  modelled as a stable sort of the rows by that column (`insertionSortB`);
  the descending variant `x[x[:,loc].argsort()[::-1]]` is the reverse of
  that stable sort, since gathering by the reversed index array reverses
  the gathered rows.
* Pandas data frames are a column-name list plus a row list (`DFrame`);
  a `query` string is interpreted by an oracle predicate `qsem`.
-/

namespace CMSDL

/-- Python `int(q)` for a rational: truncation toward zero. -/
def pyInt (q : ℚ) : ℤ := if 0 ≤ q then ⌊q⌋ else -⌊-q⌋

/-- `np.isclose(a, b)` with the default tolerances `rtol=1e-05`, `atol=1e-08`:
`|a - b| <= atol + rtol * |b|`. -/
def npIsClose (a b : ℚ) : Bool :=
  decide (|a - b| ≤ 1 / 100000000 + (1 / 100000) * |b|)

/-- A Python value used where the source stores either a single boolean or a
list of booleans (the `pre_sort_ascending` / `sort_ascending` arguments,
documented as per-column pandas flags). -/
inductive PyBoolish where
  | bool : Bool → PyBoolish
  | boolList : List Bool → PyBoolish
deriving DecidableEq

/-- The Python test `v == True`: only the boolean `True` satisfies it; a list
of booleans never does. -/
def PyBoolish.isTrue : PyBoolish → Bool
  | .bool b => b
  | .boolList _ => false

/-- A Python value passed as the `addColumns` argument: `None`, a dict of
constant column values, or something else (which the constructor rejects). -/
inductive PyAddCols where
  | pyNone : PyAddCols
  | pyDict : List (String × ℚ) → PyAddCols
  | nonDict : PyAddCols
deriving DecidableEq

/-- `ObjectProfile` after construction (`src/utils/preprocessing.py:14-46`).
`max_size = none` models Python `None` (both `-1` and `None` mean
"unresolved" in the source). -/
structure ObjectProfile where
  name : String
  max_size : Option ℤ
  pre_sort_columns : Option (List String)
  pre_sort_ascending : PyBoolish
  sort_columns : Option (List String)
  sort_ascending : PyBoolish
  query : Option String
  shuffle : Bool
  addColumns : PyAddCols
  punctuation : Option ℚ
deriving DecidableEq

/-- `ObjectProfile.__init__` (`src/utils/preprocessing.py:30-46`): rejects
`max_size < -1`, then rejects an `addColumns` value that is neither `None`
nor a dict, then stores every argument on the instance. -/
def ObjectProfile.init (name : String) (max_size : ℤ)
    (pre_sort_columns : Option (List String)) (pre_sort_ascending : PyBoolish)
    (sort_columns : Option (List String)) (sort_ascending : PyBoolish)
    (query : Option String) (shuffle : Bool) (addColumns : PyAddCols)
    (punct : Option ℚ) : Except String ObjectProfile :=
  if max_size < -1 then
    Except.error "max_size cannot be less than -1."
  else
    match addColumns with
    | PyAddCols.nonDict => Except.error "arguement addColumns must be a dictionary"
    | _ =>
      Except.ok ⟨name, some max_size, pre_sort_columns, pre_sort_ascending,
        sort_columns, sort_ascending, query, shuffle, addColumns, punct⟩

/-- A profile is unresolved when `max_size == -1 or max_size == None`
(`src/utils/preprocessing.py:82,230`). -/
def isUnresolved (p : ObjectProfile) : Bool :=
  p.max_size = some (-1) ∨ p.max_size = none

/-! ### A stable insertion sort with a boolean comparator

Used to model stable row sorting (`np.argsort` gathering, pandas sorts).
It is structurally recursive, so concrete runs reduce inside the kernel. -/

/-- Insert `a` before the first element `b` with `¬ le a b`-free position:
the classical stable ordered insert. -/
def orderedInsertB (le : α → α → Bool) (a : α) : List α → List α
  | [] => [a]
  | b :: l => if le a b then a :: b :: l else b :: orderedInsertB le a l

/-- Stable insertion sort with a boolean comparator. -/
def insertionSortB (le : α → α → Bool) : List α → List α
  | [] => []
  | a :: l => orderedInsertB le a (insertionSortB le l)

theorem orderedInsertB_perm (le : α → α → Bool) (a : α) (l : List α) :
    List.Perm (orderedInsertB le a l) (a :: l) := by
  induction l with
  | nil => simp [orderedInsertB]
  | cons b l ih =>
    by_cases h : le a b
    · simp [orderedInsertB, h]
    · simp only [orderedInsertB, h, ite_false]
      exact (ih.cons b).trans (List.Perm.swap a b l)

theorem insertionSortB_perm (le : α → α → Bool) (l : List α) :
    List.Perm (insertionSortB le l) l := by
  induction l with
  | nil => simp [insertionSortB]
  | cons a l ih =>
    exact (orderedInsertB_perm le a (insertionSortB le l)).trans (ih.cons a)

theorem insertionSortB_length (le : α → α → Bool) (l : List α) :
    (insertionSortB le l).length = l.length :=
  (insertionSortB_perm le l).length_eq

theorem insertionSortB_mem (le : α → α → Bool) (l : List α) (x : α) :
    x ∈ insertionSortB le l ↔ x ∈ l :=
  (insertionSortB_perm le l).mem_iff

theorem orderedInsertB_mem (le : α → α → Bool) (a : α) (l : List α) (x : α) :
    x ∈ orderedInsertB le a l ↔ x = a ∨ x ∈ l := by
  rw [(orderedInsertB_perm le a l).mem_iff, List.mem_cons]

theorem orderedInsertB_pairwise (le : α → α → Bool)
    (htrans : ∀ a b c, le a b = true → le b c = true → le a c = true)
    (htot : ∀ a b, le a b = true ∨ le b a = true) (a : α) (l : List α)
    (hl : l.Pairwise (fun x y => le x y = true)) :
    (orderedInsertB le a l).Pairwise (fun x y => le x y = true) := by
  induction l with
  | nil => simp [orderedInsertB]
  | cons b l ih =>
    rcases List.pairwise_cons.1 hl with ⟨hb, hl'⟩
    by_cases h : le a b = true
    · simp only [orderedInsertB, h, ite_true]
      refine List.pairwise_cons.2 ⟨?_, hl⟩
      intro y hy
      rcases List.mem_cons.1 hy with rfl | hy
      · exact h
      · exact htrans a b y h (hb y hy)
    · simp only [orderedInsertB, h, ite_false]
      refine List.pairwise_cons.2 ⟨?_, ih hl'⟩
      intro y hy
      rcases (orderedInsertB_mem le a l y).1 hy with rfl | hy
      · exact (htot y b).resolve_left h
      · exact hb y hy

theorem insertionSortB_pairwise (le : α → α → Bool)
    (htrans : ∀ a b c, le a b = true → le b c = true → le a c = true)
    (htot : ∀ a b, le a b = true ∨ le b a = true) (l : List α) :
    (insertionSortB le l).Pairwise (fun x y => le x y = true) := by
  induction l with
  | nil => simp [insertionSortB]
  | cons a l ih => exact orderedInsertB_pairwise le htrans htot a _ ih

/-! ### Pandas data frames and the per-entry transform (Preprocessing Engine)

This models `src/utils/preprocessing.py:350-383`: the body of the
`for entry, x in group_itr` loop, followed by the zero-fill loop over
slots whose entry never appeared. -/

/-- A pandas `DataFrame`: named columns and rows of rational cells. -/
structure DFrame where
  cols : List String
  rows : List (List ℚ)
deriving DecidableEq

/-- Column projection `x[observ_types]` (`preprocessing.py:360`): reorder /
select the columns named in `observ_types`, turning each row into a vector
of width `len(observ_types)`. -/
def DFrame.project (df : DFrame) (observ_types : List String) : List (List ℚ) :=
  df.rows.map (fun r => observ_types.map (fun c => r.getD (df.cols.indexOf c) 0))

/-- Lexicographic comparator over `(column index, ascending flag)` keys,
modelling the multi-column pandas `DataFrame.sort`. -/
def lexKeyLe (keys : List (ℕ × Bool)) (r1 r2 : List ℚ) : Bool :=
  match keys with
  | [] => true
  | (i, asc) :: rest =>
    let a := r1.getD i 0
    let b := r2.getD i 0
    if a = b then lexKeyLe rest r1 r2
    else if asc then decide (a ≤ b) else decide (b ≤ a)

/-- `x.sort(columns, ascending=flags)` (`preprocessing.py:352`): stable sort
of the rows by the named columns; `ascending` may be a single boolean
(broadcast) or a per-column list, as pandas accepts. -/
def pandasSortDF (df : DFrame) (cs : List String) (asc : PyBoolish) : DFrame :=
  let flags :=
    match asc with
    | PyBoolish.bool b => cs.map (fun _ => b)
    | PyBoolish.boolList l => l
  let keys := (cs.zip flags).map (fun p => (df.cols.indexOf p.1, p.2))
  ⟨df.cols, insertionSortB (lexKeyLe keys) df.rows⟩

/-- `x.query(q)` (`preprocessing.py:354`): keep the rows satisfying the query
string, whose pandas semantics is supplied by the oracle `qsem`. -/
def pandasQuery (qsem : String → List String → List ℚ → Bool) (q : String)
    (df : DFrame) : DFrame :=
  ⟨df.cols, df.rows.filter (qsem q df.cols)⟩

/-- `x[key] = value` (`preprocessing.py:358`): overwrite an existing column
with a constant, or append a new constant column. -/
def pandasSetCol (df : DFrame) (key : String) (v : ℚ) : DFrame :=
  if key ∈ df.cols then
    ⟨df.cols, df.rows.map (fun r => r.set (df.cols.indexOf key) v)⟩
  else
    ⟨df.cols ++ [key], df.rows.map (fun r => r ++ [v])⟩

/-- A row of `vecsize` zeros, as produced by `np.zeros((·, vecsize))`. -/
def zeroRow (vecsize : ℕ) : List ℚ := List.replicate vecsize 0

/-- `padItem` (`preprocessing.py:180-188`): truncate to the first `max_size`
rows when longer, else append zero rows up to `max_size`; when
`shuffle=True`, permute the result with `np.random.shuffle`, modelled by
the oracle `rng`. -/
def padItem (x : List (List ℚ)) (max_size vecsize : ℕ) (shuffle : Bool)
    (rng : List (List ℚ) → List (List ℚ)) : List (List ℚ) :=
  let out :=
    if max_size < x.length then x.take max_size
    else x ++ List.replicate (max_size - x.length) (zeroRow vecsize)
  if shuffle then rng out else out

/-- `x[x[:,loc].argsort()]` modelled as a stable sort of the rows by the
value in column `loc` (absent positions read 0, matching `getD`; in the
source the array is rectangular so every position exists). -/
def sortByCol (loc : ℕ) (x : List (List ℚ)) : List (List ℚ) :=
  insertionSortB (fun r1 r2 => decide (r1.getD loc 0 ≤ r2.getD loc 0)) x

/-- The post-padding sort loop (`preprocessing.py:367-372`):
`for loc in reversed(sort_locs)`, one ascending pass per column when
`profile.sort_ascending == True`, otherwise one descending pass
(`argsort()[::-1]`, i.e. the reverse of the stable ascending pass). -/
def postSort (x : List (List ℚ)) (locs : List ℕ) (ascending : PyBoolish) :
    List (List ℚ) :=
  locs.reverse.foldl
    (fun a loc =>
      if ascending.isTrue then sortByCol loc a else (sortByCol loc a).reverse)
    x

/-- Steps 1-4 of the per-entry transform (`preprocessing.py:351-360`):
pre-sort, query filter, constant-column merge, projection to
`observ_types`.  Returns the pre-padding projected rows. -/
def preStages (profile : ObjectProfile) (observ_types : List String)
    (qsem : String → List String → List ℚ → Bool) (df : DFrame) :
    List (List ℚ) :=
  let x1 :=
    match profile.pre_sort_columns with
    | some cs => pandasSortDF df cs profile.pre_sort_ascending
    | none => df
  let x2 :=
    match profile.query with
    | some q => pandasQuery qsem q x1
    | none => x1
  let x3 :=
    match profile.addColumns with
    | PyAddCols.pyDict d =>
      d.foldl (fun acc (kv : String × ℚ) => pandasSetCol acc kv.1 kv.2) x2
    | _ => x2
  x3.project observ_types

/-- The padding/truncation/shuffle stage applied to the projected rows
(`preprocessing.py:365`). -/
def padStage (profile : ObjectProfile) (observ_types : List String)
    (qsem : String → List String → List ℚ → Bool)
    (rng : List (List ℚ) → List (List ℚ)) (df : DFrame) : List (List ℚ) :=
  padItem (preStages profile observ_types qsem df)
    ((profile.max_size.getD 0).toNat) observ_types.length profile.shuffle rng

/-- The punctuation step (`preprocessing.py:373-374`): append one constant
row when the profile sets `punctuation`. -/
def punctStep (profile : ObjectProfile) (observ_types : List String)
    (x : List (List ℚ)) : List (List ℚ) :=
  match profile.punctuation with
  | some p => x ++ [List.replicate observ_types.length p]
  | none => x

/-- The whole per-entry transform (`preprocessing.py:350-374`), for one
grouped entity instance.  `sort_locs` is computed from the projected
column list (`x.columns.get_loc` after `x = x[observ_types]`, line 364),
i.e. from `observ_types`, before padding. -/
def processEntry (profile : ObjectProfile) (observ_types : List String)
    (qsem : String → List String → List ℚ → Bool)
    (rng : List (List ℚ) → List (List ℚ)) (df : DFrame) : List (List ℚ) :=
  let padded := padStage profile observ_types qsem rng df
  let sorted :=
    match profile.sort_columns with
    | some cs =>
      postSort padded (cs.map (fun s => observ_types.indexOf s))
        profile.sort_ascending
    | none => padded
  punctStep profile observ_types sorted

/-- An all-zero entity tensor `np.zeros((max_size, vecsize))`
(`preprocessing.py:383`). -/
def zeroEntry (max_size vecsize : ℕ) : List (List ℚ) :=
  List.replicate max_size (zeroRow vecsize)

/-- The per-profile slot-filling loop for one file segment
(`preprocessing.py:350-383`): write each grouped entry's processed tensor
into its slot (`arr[arr_start + entry - file_start_read] = x`), then fill
every slot still `None` with zeros.  Slots are indexed relative to
`arr_start`; `groups` pairs each observed entry's relative index with its
row slice. -/
def fillProfileSlots (profile : ObjectProfile) (observ_types : List String)
    (qsem : String → List String → List ℚ → Bool)
    (rng : List (List ℚ) → List (List ℚ)) (groups : List (ℕ × DFrame))
    (samples_to_read : ℕ) : List (List (List ℚ)) :=
  let init : List (Option (List (List ℚ))) := List.replicate samples_to_read none
  let filled := groups.foldl
    (fun arr g => arr.set g.1 (some (processEntry profile observ_types qsem rng g.2)))
    init
  filled.map (fun o =>
    o.getD (zeroEntry ((profile.max_size.getD 0).toNat) observ_types.length))

/-! ### Shape lemmas for the per-entry transform -/

theorem padItem_length (x : List (List ℚ)) (m w : ℕ) (sh : Bool)
    (rng : List (List ℚ) → List (List ℚ)) (hrng : ∀ l, List.Perm (rng l) l) :
    (padItem x m w sh rng).length = m := by
  unfold padItem
  have hcore : (if m < x.length then x.take m
      else x ++ List.replicate (m - x.length) (zeroRow w)).length = m := by
    by_cases h : m < x.length
    · simp [h, Nat.min_eq_left (Nat.le_of_lt h)]
    · simp only [h, ite_false, List.length_append, List.length_replicate]
      omega
  cases sh with
  | false => simpa using hcore
  | true => simpa using ((hrng _).length_eq).trans hcore

theorem padItem_width (x : List (List ℚ)) (m w : ℕ) (sh : Bool)
    (rng : List (List ℚ) → List (List ℚ)) (hrng : ∀ l, List.Perm (rng l) l)
    (hx : ∀ r ∈ x, r.length = w) :
    ∀ r ∈ padItem x m w sh rng, r.length = w := by
  unfold padItem
  have hcore : ∀ r ∈ (if m < x.length then x.take m
      else x ++ List.replicate (m - x.length) (zeroRow w)), r.length = w := by
    intro r hr
    by_cases h : m < x.length
    · simp only [h, ite_true] at hr
      exact hx r ((List.take_sublist m x).subset hr)
    · simp only [h, ite_false, List.mem_append] at hr
      rcases hr with hr | hr
      · exact hx r hr
      · rcases List.eq_of_mem_replicate hr with rfl
        simp [zeroRow]
  cases sh with
  | false => simpa using hcore
  | true =>
    intro r hr
    simp only [ite_true] at hr
    exact hcore r ((hrng _).subset hr)

theorem postSort_perm (x : List (List ℚ)) (locs : List ℕ) (asc : PyBoolish) :
    List.Perm (postSort x locs asc) x := by
  unfold postSort
  generalize locs.reverse = L
  induction L generalizing x with
  | nil => exact List.Perm.refl x
  | cons loc L ih =>
    simp only [List.foldl_cons]
    refine (ih _).trans ?_
    by_cases h : asc.isTrue
    · simpa [h] using insertionSortB_perm _ x
    · simp only [h, ite_false]
      exact (List.reverse_perm _).trans (insertionSortB_perm _ x)

theorem preStages_width (profile : ObjectProfile) (observ_types : List String)
    (qsem : String → List String → List ℚ → Bool) (df : DFrame) :
    ∀ r ∈ preStages profile observ_types qsem df, r.length = observ_types.length := by
  unfold preStages DFrame.project
  intro r hr
  simp only [List.mem_map] at hr
  rcases hr with ⟨r0, _, rfl⟩
  simp

theorem processEntry_length (profile : ObjectProfile) (observ_types : List String)
    (qsem : String → List String → List ℚ → Bool)
    (rng : List (List ℚ) → List (List ℚ)) (df : DFrame)
    (hrng : ∀ l, List.Perm (rng l) l) :
    (processEntry profile observ_types qsem rng df).length =
      (profile.max_size.getD 0).toNat +
        (if profile.punctuation.isSome then 1 else 0) := by
  unfold processEntry punctStep
  have hpad : (padStage profile observ_types qsem rng df).length =
      (profile.max_size.getD 0).toNat := padItem_length _ _ _ _ _ hrng
  have hsorted :
      (match profile.sort_columns with
        | some cs =>
          postSort (padStage profile observ_types qsem rng df)
            (cs.map (fun s => observ_types.indexOf s)) profile.sort_ascending
        | none => padStage profile observ_types qsem rng df).length =
      (profile.max_size.getD 0).toNat := by
    cases profile.sort_columns with
    | none => exact hpad
    | some cs => exact ((postSort_perm _ _ _).length_eq).trans hpad
  cases hp : profile.punctuation with
  | none => simpa [hp] using hsorted
  | some p => simp [hp, hsorted]

theorem processEntry_width (profile : ObjectProfile) (observ_types : List String)
    (qsem : String → List String → List ℚ → Bool)
    (rng : List (List ℚ) → List (List ℚ)) (df : DFrame)
    (hrng : ∀ l, List.Perm (rng l) l) :
    ∀ r ∈ processEntry profile observ_types qsem rng df,
      r.length = observ_types.length := by
  unfold processEntry punctStep
  have hpad : ∀ r ∈ padStage profile observ_types qsem rng df,
      r.length = observ_types.length :=
    padItem_width _ _ _ _ _ hrng (preStages_width profile observ_types qsem df)
  have hsorted : ∀ r ∈
      (match profile.sort_columns with
        | some cs =>
          postSort (padStage profile observ_types qsem rng df)
            (cs.map (fun s => observ_types.indexOf s)) profile.sort_ascending
        | none => padStage profile observ_types qsem rng df),
      r.length = observ_types.length := by
    cases profile.sort_columns with
    | none => exact hpad
    | some cs => exact fun r hr => hpad r ((postSort_perm _ _ _).subset hr)
  cases hp : profile.punctuation with
  | none => simpa [hp] using hsorted
  | some p =>
    intro r hr
    simp only [hp, List.mem_append, List.mem_singleton] at hr
    rcases hr with hr | rfl
    · exact hsorted r hr
    · simp

theorem foldl_set_length {β γ : Type} (gs : List (ℕ × β)) (f : ℕ × β → γ)
    (init : List (Option γ)) :
    (gs.foldl (fun arr g => arr.set g.1 (some (f g))) init).length =
      init.length := by
  induction gs generalizing init with
  | nil => rfl
  | cons g gs ih => simp [List.foldl_cons, ih]

theorem foldl_set_getD_of_forall_ne {β γ : Type} (gs : List (ℕ × β))
    (f : ℕ × β → γ) (init : List (Option γ)) (i : ℕ)
    (h : ∀ g ∈ gs, g.1 ≠ i) :
    (gs.foldl (fun arr g => arr.set g.1 (some (f g))) init).getD i none =
      init.getD i none := by
  induction gs generalizing init with
  | nil => rfl
  | cons g gs ih =>
    simp only [List.foldl_cons]
    rw [ih _ (fun g' hg' => h g' (List.mem_cons_of_mem g hg'))]
    simp only [List.getD_eq_getElem?_getD]
    rw [List.getElem?_set_ne (h g (List.mem_cons_self g gs))]

theorem foldl_set_getD_of_mem {β γ : Type} (gs : List (ℕ × β))
    (f : ℕ × β → γ) (init : List (Option γ)) (i : ℕ) (hi : i < init.length)
    (h : ∃ g ∈ gs, g.1 = i) :
    ∃ g ∈ gs, g.1 = i ∧
      (gs.foldl (fun arr g => arr.set g.1 (some (f g))) init).getD i none =
        some (f g) := by
  induction gs generalizing init with
  | nil => rcases h with ⟨g, hg, _⟩; exact absurd hg (List.not_mem_nil g)
  | cons g gs ih =>
    by_cases htail : ∃ g' ∈ gs, g'.1 = i
    · rcases ih (init.set g.1 (some (f g))) (by simpa using hi) htail with
        ⟨g', hg', hgi, hval⟩
      exact ⟨g', List.mem_cons_of_mem g hg', hgi, hval⟩
    · have hgi : g.1 = i := by
        rcases h with ⟨g', hg', hgi'⟩
        rcases List.mem_cons.1 hg' with rfl | hg'
        · exact hgi'
        · exact absurd ⟨g', hg', hgi'⟩ htail
      refine ⟨g, List.mem_cons_self g gs, hgi, ?_⟩
      simp only [List.foldl_cons]
      rw [foldl_set_getD_of_forall_ne gs f _ i
        (fun g' hg' hgi' => htail ⟨g', hg', hgi'⟩)]
      simp only [List.getD_eq_getElem?_getD, hgi]
      rw [List.getElem?_set_self (by simpa using hi)]
      rfl

/-- Claim C1: for every profile and every entity instance addressed by a
window, the Preprocessing Engine (`preprocessFromPandas_label_dir_pairs`,
inner loop `preprocessing.py:350-383` with `padItem`,
`preprocessing.py:180-188`) emits a tensor of exactly `max_size` rows by
`width = len(observ_types)` columns — `padItem` keeps the first `max_size`
rows when the instance has more, and appends zero rows at the tail when it
has fewer — with exactly one punctuation row appended (final length
`max_size + 1`) when the profile sets `punctuation` and the instance was
observed in the selected row slice; instances absent from the slice become
all-zero `(max_size, width)` tensors with no punctuation row. -/
theorem C1_per_entity_tensor_shape (profile : ObjectProfile)
    (observ_types : List String)
    (qsem : String → List String → List ℚ → Bool)
    (rng : List (List ℚ) → List (List ℚ)) (groups : List (ℕ × DFrame))
    (samples_to_read : ℕ) (mx : ℕ)
    (hmx : profile.max_size = some (mx : ℤ))
    (hrng : ∀ l, List.Perm (rng l) l)
    (hg : ∀ g ∈ groups, g.1 < samples_to_read) :
    (fillProfileSlots profile observ_types qsem rng groups
        samples_to_read).length = samples_to_read ∧
    (∀ i, i < samples_to_read →
      ((∃ g ∈ groups, g.1 = i) →
        ((fillProfileSlots profile observ_types qsem rng groups
            samples_to_read).getD i []).length =
          mx + (if profile.punctuation.isSome then 1 else 0) ∧
        ∀ r ∈ (fillProfileSlots profile observ_types qsem rng groups
            samples_to_read).getD i [], r.length = observ_types.length) ∧
      ((∀ g ∈ groups, g.1 ≠ i) →
        (fillProfileSlots profile observ_types qsem rng groups
            samples_to_read).getD i [] =
          zeroEntry mx observ_types.length)) ∧
    (∀ (rows : List (List ℚ)) (m w : ℕ),
      (m < rows.length → padItem rows m w false rng = rows.take m) ∧
      (rows.length ≤ m → padItem rows m w false rng =
        rows ++ List.replicate (m - rows.length) (zeroRow w))) := by
  have hmx' : (profile.max_size.getD 0).toNat = mx := by simp [hmx]
  have hfilllen :
      (fillProfileSlots profile observ_types qsem rng groups
        samples_to_read).length = samples_to_read := by
    unfold fillProfileSlots
    simp [foldl_set_length]
  refine ⟨hfilllen, ?_, ?_⟩
  · intro i hi
    have hinitlen :
        (List.replicate samples_to_read
          (none : Option (List (List ℚ)))).length = samples_to_read := by
      simp
    constructor
    · intro hobs
      rcases foldl_set_getD_of_mem groups
        (fun g => processEntry profile observ_types qsem rng g.2)
        (List.replicate samples_to_read none) i (by simpa using hi) hobs with
        ⟨g, hgmem, hgi, hval⟩
      have hslot :
          (fillProfileSlots profile observ_types qsem rng groups
            samples_to_read).getD i [] =
            processEntry profile observ_types qsem rng g.2 := by
        unfold fillProfileSlots
        simp only [List.getD_eq_getElem?_getD, List.getElem?_map]
        simp only [List.getD_eq_getElem?_getD] at hval
        have hlt : i <
            (groups.foldl
              (fun arr g => arr.set g.1
                (some (processEntry profile observ_types qsem rng g.2)))
              (List.replicate samples_to_read none)).length := by
          rw [foldl_set_length]
          simpa using hi
        rw [List.getElem?_eq_getElem hlt] at hval ⊢
        simp only [Option.getD_some] at hval
        simp [hval]
      rw [hslot]
      exact ⟨(processEntry_length profile observ_types qsem rng g.2 hrng).trans
          (by rw [hmx']),
        processEntry_width profile observ_types qsem rng g.2 hrng⟩
    · intro habs
      have hval := foldl_set_getD_of_forall_ne groups
        (fun g => processEntry profile observ_types qsem rng g.2)
        (List.replicate samples_to_read none) i habs
      have hnone : (List.replicate samples_to_read
          (none : Option (List (List ℚ)))).getD i none = none := by
        simp [List.getD_eq_getElem?_getD]
      rw [hnone] at hval
      unfold fillProfileSlots
      simp only [List.getD_eq_getElem?_getD, List.getElem?_map]
      have hlt : i <
          (groups.foldl
            (fun arr g => arr.set g.1
              (some (processEntry profile observ_types qsem rng g.2)))
            (List.replicate samples_to_read none)).length := by
        rw [foldl_set_length]
        simpa using hi
      simp only [List.getD_eq_getElem?_getD] at hval
      rw [List.getElem?_eq_getElem hlt] at hval
      simp only [Option.getD_some] at hval
      rw [List.getElem?_eq_getElem hlt]
      simp [hval, hmx']
  · intro rows m w
    constructor
    · intro hlt
      simp [padItem, hlt]
    · intro hle
      have : ¬ m < rows.length := by omega
      simp [padItem, this]

/-- A concrete profile used to evaluate `C1_per_entity_tensor_shape`:
`max_size = 2`, punctuation row constant `9`, no sorting or filtering. -/
def witProfileC1 : ObjectProfile :=
  ⟨"trk", some 2, none, PyBoolish.bool true, none, PyBoolish.bool true,
    none, false, PyAddCols.pyNone, some 9⟩

/-- Witness for C1: one observed instance (3 rows, truncated to 2 and
punctuated) and one absent instance (all-zero tensor). -/
theorem C1_per_entity_tensor_shape_witness :
    (fillProfileSlots witProfileC1 ["a"] (fun _ _ _ => true) id
        [(0, ⟨["a"], [[5], [6], [7]]⟩)] 2).length = 2 ∧
    (∀ i, i < 2 →
      ((∃ g ∈ [((0 : ℕ), (⟨["a"], [[5], [6], [7]]⟩ : DFrame))], g.1 = i) →
        ((fillProfileSlots witProfileC1 ["a"] (fun _ _ _ => true) id
            [(0, ⟨["a"], [[5], [6], [7]]⟩)] 2).getD i []).length =
          2 + (if witProfileC1.punctuation.isSome then 1 else 0) ∧
        ∀ r ∈ (fillProfileSlots witProfileC1 ["a"] (fun _ _ _ => true) id
            [(0, ⟨["a"], [[5], [6], [7]]⟩)] 2).getD i [],
          r.length = (["a"] : List String).length) ∧
      ((∀ g ∈ [((0 : ℕ), (⟨["a"], [[5], [6], [7]]⟩ : DFrame))], g.1 ≠ i) →
        (fillProfileSlots witProfileC1 ["a"] (fun _ _ _ => true) id
            [(0, ⟨["a"], [[5], [6], [7]]⟩)] 2).getD i [] =
          zeroEntry 2 (["a"] : List String).length)) ∧
    (∀ (rows : List (List ℚ)) (m w : ℕ),
      (m < rows.length → padItem rows m w false id = rows.take m) ∧
      (rows.length ≤ m → padItem rows m w false id =
        rows ++ List.replicate (m - rows.length) (zeroRow w))) :=
  C1_per_entity_tensor_shape witProfileC1 ["a"] (fun _ _ _ => true) id
    [(0, ⟨["a"], [[5], [6], [7]]⟩)] 2 2 rfl (fun l => List.Perm.refl l)
    (by decide)

/-! ### Claim C2: the post-padding sort

The spec asserts a separate ascending/descending flag per listed column.
The definitions below follow the spec's words and are compared with the
source's `postSort` (which tests the single value `sort_ascending == True`,
`preprocessing.py:369`). -/

/-- The per-column flag list the spec describes: a single boolean broadcasts
to every column, a list gives each column its own flag (as pandas accepts
elsewhere in the same file). -/
def specSortFlags (asc : PyBoolish) (cs : List String) : List Bool :=
  match asc with
  | PyBoolish.bool b => cs.map (fun _ => b)
  | PyBoolish.boolList l => l

/-- Spec-following post sort: stable-sort by each keyed column in reverse
declaration order, honouring a separate ascending/descending flag for each
column.  This is the behaviour the spec sentence claims; it is compared
against the source's `postSort`. -/
def specPostSortPerColumn (x : List (List ℚ)) (keys : List (ℕ × Bool)) :
    List (List ℚ) :=
  keys.reverse.foldl
    (fun a k =>
      insertionSortB
        (fun r1 r2 =>
          if k.2 then decide (r1.getD k.1 0 ≤ r2.getD k.1 0)
          else decide (r2.getD k.1 0 ≤ r1.getD k.1 0))
        a)
    x

/-- The per-entry transform as the spec describes it: identical to
`processEntry` except that the post-padding sort honours per-column
ascending flags. -/
def processEntrySpecSort (profile : ObjectProfile) (observ_types : List String)
    (qsem : String → List String → List ℚ → Bool)
    (rng : List (List ℚ) → List (List ℚ)) (df : DFrame) : List (List ℚ) :=
  let padded := padStage profile observ_types qsem rng df
  let sorted :=
    match profile.sort_columns with
    | some cs =>
      specPostSortPerColumn padded
        ((cs.map (fun s => observ_types.indexOf s)).zip
          (specSortFlags profile.sort_ascending cs))
    | none => padded
  punctStep profile observ_types sorted

/-- A profile requesting per-column flags: sort by column `a` ascending,
ties by column `b` descending. -/
def witProfileC2 : ObjectProfile :=
  ⟨"trk", some 2, none, PyBoolish.bool true, some ["a", "b"],
    PyBoolish.boolList [true, false], none, false, PyAddCols.pyNone, none⟩

/-- Counterexample to C2 as stated: with `sort_ascending = [True, False]`
the source's test `sort_ascending == True` is false, so it sorts **every**
column descending: rows `[[1,5],[2,3]]` come out `[[2,3],[1,5]]`, whereas
honouring the per-column flags (column `a` ascending as primary key) keeps
`[[1,5],[2,3]]`. -/
theorem C2_counterexample :
    processEntry witProfileC2 ["a", "b"] (fun _ _ _ => true) id
        ⟨["a", "b"], [[1, 5], [2, 3]]⟩ = [[2, 3], [1, 5]] ∧
    processEntrySpecSort witProfileC2 ["a", "b"] (fun _ _ _ => true) id
        ⟨["a", "b"], [[1, 5], [2, 3]]⟩ = [[1, 5], [2, 3]] ∧
    processEntry witProfileC2 ["a", "b"] (fun _ _ _ => true) id
        ⟨["a", "b"], [[1, 5], [2, 3]]⟩ ≠
      processEntrySpecSort witProfileC2 ["a", "b"] (fun _ _ _ => true) id
        ⟨["a", "b"], [[1, 5], [2, 3]]⟩ := by
  refine ⟨?_, ?_, ?_⟩ <;> with_unfolding_all decide

theorem sortByCol_pairwise (loc : ℕ) (x : List (List ℚ)) :
    (sortByCol loc x).Pairwise
      (fun r1 r2 => r1.getD loc 0 ≤ r2.getD loc 0) := by
  have h := insertionSortB_pairwise
    (fun r1 r2 : List ℚ => decide (r1.getD loc 0 ≤ r2.getD loc 0))
    (fun a b c hab hbc => by
      simp only [decide_eq_true_eq] at hab hbc ⊢
      exact le_trans hab hbc)
    (fun a b => by
      rcases le_total (a.getD loc 0) (b.getD loc 0) with h | h
      · exact Or.inl (by simpa using h)
      · exact Or.inr (by simpa using h)) x
  exact h.imp (fun hab => by simpa using hab)

/-- Claim C2 (amended): when a profile sets `sort_columns`, the engine sorts
the already padded/truncated/shuffled array by each listed column with one
stable pass per column, applied in reverse declaration order so the final
pass — hence the resulting row order — is governed by the first-declared
column; a **single** flag applies to every column: every pass is ascending
exactly when `sort_ascending == True` and descending (the reverse of the
stable ascending pass) for any other value, including a per-column flag
list; each column's position is resolved from the pre-padding projected
column list (`observ_types`). -/
theorem C2_post_sort_single_flag (profile : ObjectProfile)
    (observ_types : List String)
    (qsem : String → List String → List ℚ → Bool)
    (rng : List (List ℚ) → List (List ℚ)) (df : DFrame) (cs : List String)
    (hcs : profile.sort_columns = some cs) (hne : cs ≠ []) :
    processEntry profile observ_types qsem rng df =
      punctStep profile observ_types
        (postSort (padStage profile observ_types qsem rng df)
          (cs.map (fun s => observ_types.indexOf s)) profile.sort_ascending) ∧
    (∀ x : List (List ℚ),
      List.Perm
        (postSort x (cs.map (fun s => observ_types.indexOf s))
          profile.sort_ascending) x) ∧
    (profile.sort_ascending.isTrue = true →
      ∀ x : List (List ℚ),
        (postSort x (cs.map (fun s => observ_types.indexOf s))
            profile.sort_ascending).Pairwise
          (fun r1 r2 =>
            r1.getD ((cs.map (fun s => observ_types.indexOf s)).headD 0) 0 ≤
            r2.getD ((cs.map (fun s => observ_types.indexOf s)).headD 0) 0)) ∧
    (profile.sort_ascending.isTrue = false →
      ∀ x : List (List ℚ),
        (postSort x (cs.map (fun s => observ_types.indexOf s))
            profile.sort_ascending).Pairwise
          (fun r1 r2 =>
            r2.getD ((cs.map (fun s => observ_types.indexOf s)).headD 0) 0 ≤
            r1.getD ((cs.map (fun s => observ_types.indexOf s)).headD 0) 0)) ∧
    (∀ (flags : List Bool) (x : List (List ℚ)),
      postSort x (cs.map (fun s => observ_types.indexOf s))
          (PyBoolish.boolList flags) =
        postSort x (cs.map (fun s => observ_types.indexOf s))
          (PyBoolish.bool false)) := by
  obtain ⟨c0, cs', rfl⟩ := List.exists_cons_of_ne_nil hne
  refine ⟨by simp [processEntry, hcs], fun x => postSort_perm _ _ _, ?_, ?_,
    fun flags x => rfl⟩
  · intro hasc x
    unfold postSort
    rw [List.map_cons, List.reverse_cons, List.foldl_append, List.foldl_cons,
      List.foldl_nil, hasc, if_pos rfl]
    simpa using sortByCol_pairwise (observ_types.indexOf c0) _
  · intro hasc x
    unfold postSort
    rw [List.map_cons, List.reverse_cons, List.foldl_append, List.foldl_cons,
      List.foldl_nil, hasc, if_neg (by simp)]
    simp only [List.headD_cons]
    exact List.pairwise_reverse.mpr (sortByCol_pairwise (observ_types.indexOf c0) _)

/-- Witness for the amended C2 at a concrete profile sorting ascending by
column `a`. -/
theorem C2_post_sort_single_flag_witness :
    (processEntry
        ⟨"trk", some 2, none, PyBoolish.bool true, some ["a"],
          PyBoolish.bool true, none, false, PyAddCols.pyNone, none⟩
        ["a", "b"] (fun _ _ _ => true) id ⟨["a", "b"], [[2, 3], [1, 5]]⟩ =
      punctStep
        ⟨"trk", some 2, none, PyBoolish.bool true, some ["a"],
          PyBoolish.bool true, none, false, PyAddCols.pyNone, none⟩
        ["a", "b"]
        (postSort
          (padStage
            ⟨"trk", some 2, none, PyBoolish.bool true, some ["a"],
              PyBoolish.bool true, none, false, PyAddCols.pyNone, none⟩
            ["a", "b"] (fun _ _ _ => true) id ⟨["a", "b"], [[2, 3], [1, 5]]⟩)
          (["a"].map (fun s => (["a", "b"] : List String).indexOf s))
          (PyBoolish.bool true))) ∧
    (∀ x : List (List ℚ),
      List.Perm
        (postSort x (["a"].map (fun s => (["a", "b"] : List String).indexOf s))
          (PyBoolish.bool true)) x) ∧
    ((PyBoolish.bool true).isTrue = true →
      ∀ x : List (List ℚ),
        (postSort x
            (["a"].map (fun s => (["a", "b"] : List String).indexOf s))
            (PyBoolish.bool true)).Pairwise
          (fun r1 r2 =>
            r1.getD ((["a"].map
              (fun s => (["a", "b"] : List String).indexOf s)).headD 0) 0 ≤
            r2.getD ((["a"].map
              (fun s => (["a", "b"] : List String).indexOf s)).headD 0) 0)) ∧
    ((PyBoolish.bool true).isTrue = false →
      ∀ x : List (List ℚ),
        (postSort x
            (["a"].map (fun s => (["a", "b"] : List String).indexOf s))
            (PyBoolish.bool true)).Pairwise
          (fun r1 r2 =>
            r2.getD ((["a"].map
              (fun s => (["a", "b"] : List String).indexOf s)).headD 0) 0 ≤
            r1.getD ((["a"].map
              (fun s => (["a", "b"] : List String).indexOf s)).headD 0) 0)) ∧
    (∀ (flags : List Bool) (x : List (List ℚ)),
      postSort x (["a"].map (fun s => (["a", "b"] : List String).indexOf s))
          (PyBoolish.boolList flags) =
        postSort x (["a"].map (fun s => (["a", "b"] : List String).indexOf s))
          (PyBoolish.bool false)) :=
  C2_post_sort_single_flag
    ⟨"trk", some 2, none, PyBoolish.bool true, some ["a"],
      PyBoolish.bool true, none, false, PyAddCols.pyNone, none⟩
    ["a", "b"] (fun _ _ _ => true) id ⟨["a", "b"], [[2, 3], [1, 5]]⟩
    ["a"] rfl (by decide)

/-! ### Claim C3: the Budget Splitter (`start_num_fromSplits`,
`preprocessing.py:546-572`) -/

/-- `are_static_vals = [(True if int(x) > 0 else False) for x in splits]`
(`preprocessing.py:551`). -/
def areStaticVals (splits : List ℚ) : List Bool :=
  splits.map (fun x => decide (0 < pyInt x))

/-- `static_vals = [s for s, a in zip(splits, are_static_vals) if a]`
(`preprocessing.py:554`). -/
def staticVals (splits : List ℚ) : List ℚ :=
  (splits.zip (areStaticVals splits)).filterMap
    (fun (p : ℚ × Bool) => if p.2 then some p.1 else none)

/-- `ratios = [s for s, a in zip(splits, are_static_vals) if not a]`
(`preprocessing.py:553`). -/
def ratioVals (splits : List ℚ) : List ℚ :=
  (splits.zip (areStaticVals splits)).filterMap
    (fun (p : ℚ × Bool) => if p.2 then none else some p.1)

/-- `nums = [int(s) if a else int(s*length) for s, a in zip(splits, are_static_vals)]`
(`preprocessing.py:566`), with `length` already reduced by the static sum. -/
def splitNumsCode (splits : List ℚ) (len2 : ℚ) : List ℤ :=
  (splits.zip (areStaticVals splits)).map
    (fun (p : ℚ × Bool) => if p.2 then pyInt p.1 else pyInt (p.1 * len2))

/-- The accumulation loop at the end of `start_num_fromSplits`
(`preprocessing.py:567-572`): `out.append((start, n)); start += n`. -/
def buildStarts (nums : List ℤ) : List (ℤ × ℤ) :=
  (nums.foldl
    (fun (acc : List (ℤ × ℤ) × ℤ) n => (acc.1 ++ [(acc.2, n)], acc.2 + n))
    ([], 0)).1

/-- `start_num_fromSplits` (`preprocessing.py:546-572`): reject negative
splits; when some split is static (`int(x) > 0`), subtract the static sum
from the budget (error if it exceeds it); a nonempty ratio list must sum to
1 up to `np.isclose`; then emit `(start, num)` windows in declaration
order.  The two arms of the `if` chain mirror the Python data flow: in the
no-static arm `ratios = splits` and the length is left unchanged. -/
def start_num_fromSplits (splits : List ℚ) (length : ℚ) :
    Except String (List (ℤ × ℤ)) :=
  if splits.any (fun x => decide (x < 0)) then
    Except.error "Splits cannot be negative"
  else if (areStaticVals splits).any (fun a => a) then
    if length < (staticVals splits).sum then
      Except.error "Static values have sum exceeding given length"
    else if 0 < (ratioVals splits).length ∧
        npIsClose (ratioVals splits).sum 1 = false then
      Except.error "Sum of splits must equal 1.0"
    else
      Except.ok (buildStarts (splitNumsCode splits
        (length - (staticVals splits).sum)))
  else
    if 0 < splits.length ∧ npIsClose splits.sum 1 = false then
      Except.error "Sum of splits must equal 1.0"
    else
      Except.ok (buildStarts (splitNumsCode splits length))

/-- The window list written with an explicit running start. -/
def buildFrom (start : ℤ) : List ℤ → List (ℤ × ℤ)
  | [] => []
  | n :: ns => (start, n) :: buildFrom (start + n) ns

/-- The per-split counts in the claim's terms: `int(x)` for a static split,
`int(x * len2)` for a ratio split. -/
def splitNums (splits : List ℚ) (len2 : ℚ) : List ℤ :=
  splits.map (fun x => if 0 < pyInt x then pyInt x else pyInt (x * len2))

/-- Windows are consecutive starting at `s`: each starts where the previous
one ends and has a non-negative count (hence ordered, contiguous and
non-overlapping). -/
def contiguousFromB : ℤ → List (ℤ × ℤ) → Bool
  | _, [] => true
  | s, w :: rest =>
    (decide (w.1 = s) && decide (0 ≤ w.2)) && contiguousFromB (s + w.2) rest

/-- Total sample count of a window list. -/
def windowsTotal (out : List (ℤ × ℤ)) : ℤ := (out.map Prod.snd).sum

/-- The window list covers exactly `[0, len)`: contiguous from 0 and the
counts add up to `len`. -/
def coversZeroUpTo (out : List (ℤ × ℤ)) (len : ℤ) : Bool :=
  contiguousFromB 0 out && decide (windowsTotal out = len)

theorem buildStarts_aux (nums : List ℤ) (acc : List (ℤ × ℤ)) (s : ℤ) :
    (nums.foldl
      (fun (acc : List (ℤ × ℤ) × ℤ) n => (acc.1 ++ [(acc.2, n)], acc.2 + n))
      (acc, s)).1 = acc ++ buildFrom s nums := by
  induction nums generalizing acc s with
  | nil => simp [buildFrom]
  | cons n ns ih =>
    simp only [List.foldl_cons, buildFrom, ih, List.append_assoc,
      List.singleton_append]

theorem buildStarts_eq_buildFrom (nums : List ℤ) :
    buildStarts nums = buildFrom 0 nums := by
  simpa using buildStarts_aux nums [] 0

theorem buildFrom_contiguous (nums : List ℤ) (s : ℤ)
    (h : ∀ n ∈ nums, 0 ≤ n) :
    contiguousFromB s (buildFrom s nums) = true := by
  induction nums generalizing s with
  | nil => rfl
  | cons n ns ih =>
    have h1 : 0 ≤ n := h n (List.mem_cons_self n ns)
    have h2 := ih (s + n) (fun m hm => h m (List.mem_cons_of_mem n hm))
    simp [buildFrom, contiguousFromB, h1, h2]

theorem buildFrom_snd (nums : List ℤ) (s : ℤ) :
    (buildFrom s nums).map Prod.snd = nums := by
  induction nums generalizing s with
  | nil => rfl
  | cons n ns ih => simp [buildFrom, ih]

theorem staticVals_eq_filter (splits : List ℚ) :
    staticVals splits = splits.filter (fun x => decide (0 < pyInt x)) := by
  unfold staticVals areStaticVals
  induction splits with
  | nil => rfl
  | cons x xs ih =>
    simp only [List.map_cons, List.zip_cons_cons, List.filterMap_cons,
      List.filter_cons]
    cases h : decide (0 < pyInt x) with
    | false => simpa [h] using ih
    | true => simpa [h] using ih

theorem ratioVals_eq_filter (splits : List ℚ) :
    ratioVals splits = splits.filter (fun x => !decide (0 < pyInt x)) := by
  unfold ratioVals areStaticVals
  induction splits with
  | nil => rfl
  | cons x xs ih =>
    simp only [List.map_cons, List.zip_cons_cons, List.filterMap_cons,
      List.filter_cons]
    cases h : decide (0 < pyInt x) with
    | false => simpa [h] using ih
    | true => simpa [h] using ih

theorem splitNumsCode_eq_splitNums (splits : List ℚ) (len2 : ℚ) :
    splitNumsCode splits len2 = splitNums splits len2 := by
  unfold splitNumsCode splitNums areStaticVals
  induction splits with
  | nil => rfl
  | cons x xs ih =>
    simp only [List.map_cons, List.zip_cons_cons]
    by_cases h : 0 < pyInt x
    · simp [h, ih]
    · simp [h, ih]

theorem pyInt_nonneg (q : ℚ) (h : 0 ≤ q) : 0 ≤ pyInt q := by
  unfold pyInt
  rw [if_pos h]
  exact Int.le_floor.2 (by exact_mod_cast h)

/-- Counterexample to C3 as stated: the valid splits `[0.5, 0.5]` with
length 3 satisfy every precondition of the claim (fractions in `(0,1)`,
no absolute entries, ratios summing to exactly 1) yet produce
`[(0,1),(1,1)]` — each ratio count is floored by `int(s*length)` — which
covers only `[0,2)`, not `[0,3)` as the claim asserts. -/
theorem C3_counterexample :
    ((0 : ℚ) < 1 / 2 ∧ (1 / 2 : ℚ) < 1) ∧ ((1 / 2 : ℚ) + 1 / 2 = 1) ∧
    start_num_fromSplits [1 / 2, 1 / 2] 3 = Except.ok [(0, 1), (1, 1)] ∧
    coversZeroUpTo [(0, 1), (1, 1)] 3 = false := by
  refine ⟨by with_unfolding_all decide, by with_unfolding_all decide,
    by with_unfolding_all rfl, by with_unfolding_all decide⟩

/-- Claim C3 (amended): for every valid splits list (each element a
non-negative integer absolute count or a fraction in `(0,1)`, absolute
entries summing to at most `length`, nonempty ratio entries summing to 1 up
to `np.isclose`) and every non-negative `length`, `start_num_fromSplits`
returns the ordered window list built from the per-split counts in
declaration order: an absolute split contributes `int(x)` samples, a ratio
split contributes `int(x * remaining)` — floored — where `remaining` is
`length` minus the absolute total; the windows are contiguous from 0 and
non-overlapping, covering `[0, S)` for `S` the sum of those counts, which
can fall short of `length` when the floored ratio shares do not add back up
to the remainder. -/
theorem C3_splits_windows (splits : List ℚ) (length : ℚ)
    (hval : ∀ x ∈ splits, (∃ n : ℕ, x = (n : ℚ)) ∨ (0 < x ∧ x < 1))
    (hlen : 0 ≤ length)
    (hstat : (splits.filter (fun x => decide (0 < pyInt x))).sum ≤ length)
    (hratio : splits.filter (fun x => !decide (0 < pyInt x)) ≠ [] →
      npIsClose (splits.filter (fun x => !decide (0 < pyInt x))).sum 1 = true) :
    start_num_fromSplits splits length =
      Except.ok (buildFrom 0 (splitNums splits
        (length - (splits.filter (fun x => decide (0 < pyInt x))).sum))) ∧
    contiguousFromB 0 (buildFrom 0 (splitNums splits
        (length - (splits.filter (fun x => decide (0 < pyInt x))).sum))) =
      true ∧
    (buildFrom 0 (splitNums splits
        (length - (splits.filter (fun x => decide (0 < pyInt x))).sum))).map
        Prod.snd =
      splitNums splits
        (length - (splits.filter (fun x => decide (0 < pyInt x))).sum) := by
  have hnonneg : ∀ x ∈ splits, 0 ≤ x := by
    intro x hx
    rcases hval x hx with ⟨n, rfl⟩ | ⟨h1, _⟩
    · exact_mod_cast Nat.zero_le n
    · exact le_of_lt h1
  have hlen2 :
      0 ≤ length - (splits.filter (fun x => decide (0 < pyInt x))).sum := by
    linarith [hstat]
  have hnums : ∀ n ∈ splitNums splits
      (length - (splits.filter (fun x => decide (0 < pyInt x))).sum),
      0 ≤ n := by
    intro n hn
    simp only [splitNums, List.mem_map] at hn
    rcases hn with ⟨x, hx, rfl⟩
    by_cases hsx : 0 < pyInt x
    · simp only [hsx, ite_true]
      exact le_of_lt hsx
    · simp only [hsx, ite_false]
      exact pyInt_nonneg _ (mul_nonneg (hnonneg x hx) hlen2)
  refine ⟨?_, buildFrom_contiguous _ 0 hnums, buildFrom_snd _ 0⟩
  have hnoneg : splits.any (fun x => decide (x < 0)) = false := by
    simp only [List.any_eq_false, decide_eq_true_eq]
    intro x hx
    exact not_lt.2 (hnonneg x hx)
  unfold start_num_fromSplits
  rw [if_neg (by simp [hnoneg])]
  by_cases hany : (areStaticVals splits).any (fun a => a) = true
  · rw [if_pos hany,
      if_neg (not_lt.2 (by rw [staticVals_eq_filter]; exact hstat))]
    rw [if_neg ?hclose]
    case hclose =>
      rintro ⟨hpos, hcf⟩
      have hne : splits.filter (fun x => !decide (0 < pyInt x)) ≠ [] := by
        intro hnil
        rw [ratioVals_eq_filter, hnil] at hpos
        simp at hpos
      rw [ratioVals_eq_filter, hratio hne] at hcf
      exact Bool.noConfusion hcf
    rw [splitNumsCode_eq_splitNums, staticVals_eq_filter,
      buildStarts_eq_buildFrom]
  · rw [if_neg hany]
    have hstatic_false : ∀ x ∈ splits, ¬ 0 < pyInt x := by
      intro x hx hlt
      apply hany
      rw [List.any_eq_true]
      exact ⟨decide (0 < pyInt x),
        List.mem_map_of_mem (fun x => decide (0 < pyInt x)) hx,
        by simpa using hlt⟩
    have hallratio : splits.filter (fun x => decide (0 < pyInt x)) = [] := by
      rw [List.filter_eq_nil_iff]
      intro x hx
      simpa using hstatic_false x hx
    have hfil : splits.filter (fun x => !decide (0 < pyInt x)) = splits := by
      rw [List.filter_eq_self]
      intro x hx
      simpa using hstatic_false x hx
    rw [if_neg ?hclose2]
    case hclose2 =>
      rintro ⟨hpos, hcf⟩
      have hne : splits.filter (fun x => !decide (0 < pyInt x)) ≠ [] := by
        rw [hfil]
        intro hnil
        rw [hnil] at hpos
        simp at hpos
      have hcl := hratio hne
      rw [hfil] at hcl
      rw [hcl] at hcf
      exact Bool.noConfusion hcf
    rw [splitNumsCode_eq_splitNums, buildStarts_eq_buildFrom, hallratio]
    simp

/-- Witness for the amended C3 at the spec's worked example: splits
`[50, 0.5, 0.5]` with length 150 give windows `[(0,50),(50,50),(100,50)]`. -/
theorem C3_splits_windows_witness :
    (start_num_fromSplits [50, 1 / 2, 1 / 2] 150 =
      Except.ok (buildFrom 0 (splitNums [50, 1 / 2, 1 / 2]
        (150 - (([50, 1 / 2, 1 / 2] : List ℚ).filter
          (fun x => decide (0 < pyInt x))).sum))) ∧
    contiguousFromB 0 (buildFrom 0 (splitNums [50, 1 / 2, 1 / 2]
        (150 - (([50, 1 / 2, 1 / 2] : List ℚ).filter
          (fun x => decide (0 < pyInt x))).sum))) = true ∧
    (buildFrom 0 (splitNums [50, 1 / 2, 1 / 2]
        (150 - (([50, 1 / 2, 1 / 2] : List ℚ).filter
          (fun x => decide (0 < pyInt x))).sum))).map Prod.snd =
      splitNums [50, 1 / 2, 1 / 2]
        (150 - (([50, 1 / 2, 1 / 2] : List ℚ).filter
          (fun x => decide (0 < pyInt x))).sum)) ∧
    buildFrom 0 (splitNums [50, 1 / 2, 1 / 2]
        (150 - (([50, 1 / 2, 1 / 2] : List ℚ).filter
          (fun x => decide (0 < pyInt x))).sum)) =
      [(0, 50), (50, 50), (100, 50)] :=
  ⟨C3_splits_windows [50, 1 / 2, 1 / 2] 150
    (by
      intro x hx
      simp only [List.mem_cons, List.not_mem_nil, or_false] at hx
      rcases hx with rfl | rfl | rfl
      · exact Or.inl ⟨50, by with_unfolding_all decide⟩
      · exact Or.inr ⟨by with_unfolding_all decide, by with_unfolding_all decide⟩
      · exact Or.inr ⟨by with_unfolding_all decide, by with_unfolding_all decide⟩)
    (by with_unfolding_all decide)
    (by with_unfolding_all decide)
    (fun _ => by with_unfolding_all decide),
   by with_unfolding_all rfl⟩

/-! ### Claim C4: the Chunking Planner (`procsFrom_label_dir_pairs`,
`preprocessing.py:576-614`) -/

/-- Python `range(start, stop, step)` for positive `step`, with structural
fuel (`stop - start` iterations suffice since every step advances by at
least one), so concrete runs reduce inside the kernel. -/
def pyRangeNatAux : ℕ → ℕ → ℕ → ℕ → List ℕ
  | 0, _, _, _ => []
  | fuel + 1, start, stop, step =>
    if start < stop ∧ 0 < step then
      start :: pyRangeNatAux fuel (start + step) stop step
    else []

/-- Python `range(start, stop, step)` with positive `step`. -/
def pyRangeNat (start stop step : ℕ) : List ℕ :=
  pyRangeNatAux (stop - start) start stop step

theorem pyRangeNatAux_fuel (fuel fuel' start stop step : ℕ)
    (h : stop - start ≤ fuel) (h' : stop - start ≤ fuel') :
    pyRangeNatAux fuel start stop step = pyRangeNatAux fuel' start stop step := by
  induction fuel generalizing fuel' start with
  | zero =>
    cases fuel' with
    | zero => rfl
    | succ f =>
      simp only [pyRangeNatAux]
      rw [if_neg (by omega)]
  | succ f ih =>
    cases fuel' with
    | zero =>
      simp only [pyRangeNatAux]
      rw [if_neg (by omega)]
    | succ f' =>
      simp only [pyRangeNatAux]
      by_cases hc : start < stop ∧ 0 < step
      · rw [if_pos hc, if_pos hc,
          ih f' (start + step) (by omega) (by omega)]
      · rw [if_neg hc, if_neg hc]

theorem pyRangeNat_unfold (start stop step : ℕ) :
    pyRangeNat start stop step =
      if start < stop ∧ 0 < step then
        start :: pyRangeNat (start + step) stop step
      else [] := by
  unfold pyRangeNat
  by_cases hc : start < stop ∧ 0 < step
  · rw [if_pos hc]
    cases hdiff : stop - start with
    | zero => exact absurd hdiff (by omega)
    | succ k =>
      simp only [pyRangeNatAux]
      rw [if_pos hc]
      exact congrArg (List.cons start)
        (pyRangeNatAux_fuel k (stop - (start + step)) (start + step) stop step
          (by omega) (by omega))
  · rw [if_neg hc]
    cases hdiff : stop - start with
    | zero => rfl
    | succ k =>
      simp only [pyRangeNatAux]
      rw [if_neg hc]

/-- The chunk windows built by `procsFrom_label_dir_pairs`
(`preprocessing.py:592-595`): `end = start+samples_per_label;
for proc_start in range(start, end, stride): proc_num = min(stride,
end-proc_start)`.  Each window is passed to one `DataProcedure`. -/
def procsFrom_label_dir_pairs_windows (start samples_per_label stride : ℕ) :
    List (ℕ × ℕ) :=
  (pyRangeNat start (start + samples_per_label) stride).map
    (fun proc_start =>
      (proc_start, min stride (start + samples_per_label - proc_start)))

theorem procsWindows_unfold (start n stride : ℕ) (hs : 0 < stride) :
    procsFrom_label_dir_pairs_windows start n stride =
      if 0 < n then
        (start, min stride n) ::
          procsFrom_label_dir_pairs_windows (start + stride) (n - stride) stride
      else [] := by
  unfold procsFrom_label_dir_pairs_windows
  rw [pyRangeNat_unfold]
  by_cases hn : 0 < n
  · rw [if_pos (by constructor <;> omega), if_pos hn]
    simp only [List.map_cons]
    have hmin : start + n - start = n := by omega
    rw [hmin]
    rcases le_or_lt stride n with hle | hlt
    · have harg2 : start + n = start + stride + (n - stride) := by omega
      congr 1
      rw [harg2]
    · have h1 : pyRangeNat (start + stride) (start + n) stride = [] := by
        rw [pyRangeNat_unfold, if_neg (by omega)]
      have h2 : pyRangeNat (start + stride)
          (start + stride + (n - stride)) stride = [] := by
        rw [pyRangeNat_unfold, if_neg (by omega)]
      rw [h1, h2]
      simp
  · rw [if_neg (by omega), if_neg hn]
    rfl

theorem procsWindows_cover (stride : ℕ) (hs : 0 < stride) :
    ∀ n start,
      ((procsFrom_label_dir_pairs_windows start n stride).flatMap
        (fun w => List.range' w.1 w.2)) = List.range' start n ∧
      ∀ w ∈ procsFrom_label_dir_pairs_windows start n stride,
        0 < w.2 ∧ w.2 ≤ stride := by
  intro n
  induction n using Nat.strong_induction_on with
  | _ n ih =>
    intro start
    rw [procsWindows_unfold _ _ _ hs]
    by_cases hn : 0 < n
    · rw [if_pos hn]
      rcases ih (n - stride) (by omega) (start + stride) with ⟨ihcov, ihbnd⟩
      constructor
      · simp only [List.flatMap_cons, ihcov]
        rcases le_or_lt stride n with hle | hlt
        · rw [Nat.min_eq_left hle]
          have := List.range'_append start stride (n - stride) 1
          simp only [one_mul] at this
          rw [this]
          congr 1
          omega
        · rw [Nat.min_eq_right (le_of_lt hlt)]
          have h0 : n - stride = 0 := by omega
          rw [h0]
          simp
      · intro w hw
        rcases List.mem_cons.1 hw with rfl | hw
        · exact ⟨by simp [hn, hs], Nat.min_le_left _ _⟩
        · exact ihbnd w hw
    · rw [if_neg hn]
      refine ⟨?_, by simp⟩
      have h0 : n = 0 := by omega
      simp [h0]

/-- Claim C4: the Chunking Planner splits a `(start, count)` window into
consecutive sub-windows of at most `stride` samples each that cover the
window exactly once — the flattened half-open ranges of the sub-windows
are precisely `[start, start+count)` in order, with no gaps or overlaps —
the last chunk possibly smaller; in particular a window of `count=230`
with `stride=100` yields exactly `[(0,100),(100,100),(200,30)]`. -/
theorem C4_chunking_planner (start n stride : ℕ) (hs : 0 < stride) :
    ((procsFrom_label_dir_pairs_windows start n stride).flatMap
        (fun w => List.range' w.1 w.2)) = List.range' start n ∧
    (∀ w ∈ procsFrom_label_dir_pairs_windows start n stride,
      0 < w.2 ∧ w.2 ≤ stride) ∧
    procsFrom_label_dir_pairs_windows 0 230 100 =
      [(0, 100), (100, 100), (200, 30)] := by
  rcases procsWindows_cover stride hs n start with ⟨hcov, hbnd⟩
  exact ⟨hcov, hbnd, by decide⟩

/-- Witness for C4 at the spec's example window `(0, 230)` with stride 100. -/
theorem C4_chunking_planner_witness :
    ((procsFrom_label_dir_pairs_windows 0 230 100).flatMap
        (fun w => List.range' w.1 w.2)) = List.range' 0 230 ∧
    (∀ w ∈ procsFrom_label_dir_pairs_windows 0 230 100,
      0 < w.2 ∧ w.2 ≤ 100) ∧
    procsFrom_label_dir_pairs_windows 0 230 100 =
      [(0, 100), (100, 100), (200, 30)] :=
  C4_chunking_planner 0 230 100 (by decide)

/-! ### Claim C6: the Batch Generator (`genFromDPs`,
`preprocessing.py:633-669`)

Each resolved task is a pair `(X, Y)` of sample lists (the source wraps a
bare array into a singleton list; we model one input array per side, whose
element type is opaque).  `tot = Y[0].shape[0]`; the source asserts
`tot == X[0].shape[0]`, which appears as a length hypothesis.  The
`isinstance(dp, DataProcedure)` check at entry is enforced by typing in the
embedding.  The generator loops `while True` over the task list, so its
output is the infinite repetition of one pass. -/

/-- One full pass over the task list (`threading=False` arm): for each
task's `(X, Y)`, yield `X[start:end], Y[start:end]` for
`start in range(0, tot, batch_size)` with
`end = start + min(batch_size, tot - start)` (`preprocessing.py:661-669`). -/
def genFromDPs_pass {α β : Type} (dps : List (List α × List β))
    (batch_size : ℕ) : List (List α × List β) :=
  dps.flatMap (fun d =>
    (pyRangeNat 0 d.2.length batch_size).map
      (fun start =>
        ((d.1.drop start).take (min batch_size (d.2.length - start)),
         (d.2.drop start).take (min batch_size (d.2.length - start)))))

/-- The first `passes` cycles of the infinite `while True` loop. -/
def genFromDPs_yields {α β : Type} (dps : List (List α × List β))
    (batch_size passes : ℕ) : List (List α × List β) :=
  (List.replicate passes (genFromDPs_pass dps batch_size)).flatten

theorem flatMap_map_comp {α β γ : Type} (l : List α) (f : α → β)
    (g : β → List γ) :
    (l.map f).flatMap g = l.flatMap (fun x => g (f x)) := by
  induction l with
  | nil => rfl
  | cons a l ih => simp [List.flatMap_cons, ih]

theorem slices_flatMap_aux {α : Type} (bs : ℕ) (hbs : 0 < bs) :
    ∀ rem s (xs : List α), xs.length = s + rem →
      ((pyRangeNat s (s + rem) bs).flatMap
        (fun st => (xs.drop st).take (min bs (s + rem - st)))) =
        xs.drop s := by
  intro rem
  induction rem using Nat.strong_induction_on with
  | _ rem ih =>
    intro s xs hlen
    by_cases hrem : 0 < rem
    · rw [pyRangeNat_unfold, if_pos ⟨by omega, hbs⟩]
      simp only [List.flatMap_cons]
      have hsub : s + rem - s = rem := by omega
      rw [hsub]
      rcases le_or_lt bs rem with hle | hlt
      · have harith : s + rem = (s + bs) + (rem - bs) := by omega
        rw [harith, ih (rem - bs) (by omega) (s + bs) xs (by omega)]
        rw [Nat.min_eq_left hle]
        rw [← List.drop_drop]
        exact List.take_append_drop bs (xs.drop s)
      · have hempty : pyRangeNat (s + bs) (s + rem) bs = [] := by
          rw [pyRangeNat_unfold, if_neg (by omega)]
        rw [hempty]
        simp only [List.flatMap_nil, List.append_nil]
        rw [Nat.min_eq_right (le_of_lt hlt)]
        have hdlen : (xs.drop s).length = rem := by
          rw [List.length_drop, hlen]
          omega
        rw [← hdlen]
        exact List.take_length (xs.drop s)
    · have h0 : rem = 0 := by omega
      subst h0
      rw [pyRangeNat_unfold, if_neg (by omega)]
      simp only [List.flatMap_nil]
      symm
      rw [List.drop_eq_nil_iff]
      omega

theorem slices_flatMap {α : Type} (bs tot : ℕ) (hbs : 0 < bs) (xs : List α)
    (hlen : xs.length = tot) :
    ((pyRangeNat 0 tot bs).flatMap
      (fun st => (xs.drop st).take (min bs (tot - st)))) = xs := by
  have := slices_flatMap_aux bs hbs tot 0 xs (by omega)
  simpa using this

/-- Claim C6: with an ordered list of 2 chunk tasks each resolving to 10
samples and `batch_size = 4`, `genFromDPs` yields batches of sizes
`[4,4,2,4,4,2]` in that order — chunk order and sample order preserved
(the concatenation of the yielded batches is exactly the concatenation of
the chunks) — and after exhausting the task list it cycles back to the
first chunk, repeating the same sequence indefinitely (the `k+1`-pass
prefix is one full pass followed by the `k`-pass prefix). -/
theorem C6_batch_generator {α β : Type} (X1 X2 : List α) (Y1 Y2 : List β)
    (h1 : X1.length = 10) (h2 : Y1.length = 10) (h3 : X2.length = 10)
    (h4 : Y2.length = 10) :
    (genFromDPs_pass [(X1, Y1), (X2, Y2)] 4).map
        (fun b => (b.1.length, b.2.length)) =
      [(4, 4), (4, 4), (2, 2), (4, 4), (4, 4), (2, 2)] ∧
    (genFromDPs_pass [(X1, Y1), (X2, Y2)] 4).flatMap Prod.fst = X1 ++ X2 ∧
    (genFromDPs_pass [(X1, Y1), (X2, Y2)] 4).flatMap Prod.snd = Y1 ++ Y2 ∧
    (∀ k, genFromDPs_yields [(X1, Y1), (X2, Y2)] 4 (k + 1) =
      genFromDPs_pass [(X1, Y1), (X2, Y2)] 4 ++
        genFromDPs_yields [(X1, Y1), (X2, Y2)] 4 k) := by
  have hrange : pyRangeNat 0 10 4 = [0, 4, 8] := by decide
  refine ⟨?_, ?_, ?_, ?_⟩
  · simp only [genFromDPs_pass, List.flatMap_cons, List.flatMap_nil,
      List.append_nil, h2, h4, hrange, List.map_cons, List.map_nil,
      List.map_append, List.length_take, List.length_drop, h1, h3]
    norm_num
  · simp only [genFromDPs_pass, List.flatMap_cons, List.flatMap_nil,
      List.append_nil, h2, h4, hrange, List.flatMap_append,
      flatMap_map_comp]
    have hx1 := slices_flatMap 4 10 (by decide) X1 h1
    have hx2 := slices_flatMap 4 10 (by decide) X2 h3
    rw [hrange] at hx1 hx2
    simp only [List.flatMap_cons, List.flatMap_nil, List.append_nil] at hx1 hx2
    rw [hx1, hx2]
  · simp only [genFromDPs_pass, List.flatMap_cons, List.flatMap_nil,
      List.append_nil, h2, h4, hrange, List.flatMap_append,
      flatMap_map_comp]
    have hy1 := slices_flatMap 4 10 (by decide) Y1 h2
    have hy2 := slices_flatMap 4 10 (by decide) Y2 h4
    rw [hrange] at hy1 hy2
    simp only [List.flatMap_cons, List.flatMap_nil, List.append_nil] at hy1 hy2
    rw [hy1, hy2]
  · intro k
    simp [genFromDPs_yields, List.replicate_succ]

/-- Witness for C6 on two concrete 10-sample chunks. -/
theorem C6_batch_generator_witness :
    (genFromDPs_pass [(List.range 10, List.range 10),
        (List.range 10, List.range 10)] 4).map
        (fun b => (b.1.length, b.2.length)) =
      [(4, 4), (4, 4), (2, 2), (4, 4), (4, 4), (2, 2)] ∧
    (genFromDPs_pass [(List.range 10, List.range 10),
        (List.range 10, List.range 10)] 4).flatMap Prod.fst =
      List.range 10 ++ List.range 10 ∧
    (genFromDPs_pass [(List.range 10, List.range 10),
        (List.range 10, List.range 10)] 4).flatMap Prod.snd =
      List.range 10 ++ List.range 10 ∧
    (∀ k, genFromDPs_yields [(List.range 10, List.range 10),
        (List.range 10, List.range 10)] 4 (k + 1) =
      genFromDPs_pass [(List.range 10, List.range 10),
          (List.range 10, List.range 10)] 4 ++
        genFromDPs_yields [(List.range 10, List.range 10),
          (List.range 10, List.range 10)] 4 k) :=
  C6_batch_generator (List.range 10) (List.range 10) (List.range 10)
    (List.range 10) (by decide) (by decide) (by decide) (by decide)

/-! ### Claim C5: the Size Resolver (`resolveProfileMaxes`,
`preprocessing.py:65-109`)

A source file is modelled by its `NumValues` frame: for each profile name a
column of per-entry row counts.  The scan trace records, in order, every
directory listed and every file whose `NumValues` frame is read, so "must
not scan sources at all" is "the trace is empty". -/

/-- One table file as seen by the resolver: its name (files are iterated in
sorted name order, `files.sort()`) and its `NumValues` frame. -/
structure NVFile where
  fname : String
  numValues : List (String × List ℕ)
deriving DecidableEq

/-- `num_val_frame[name]`: the per-entry row counts for one profile name. -/
def fileColumn (f : NVFile) (key : String) : List ℕ :=
  (f.numValues.lookup key).getD []

/-- `num_val_frame[name].max()` (non-empty columns; on ℕ the 0 seed is
absorbed). -/
def pandasColMax (l : List ℕ) : ℕ := l.foldl max 0

/-- The filesystem: each directory holds its table files. -/
abbrev PandasFS := List (String × List NVFile)

/-- The files of one directory, before sorting. -/
def dirFiles (fs : PandasFS) (dir : String) : List NVFile :=
  (fs.lookup dir).getD []

/-- `files.sort()` (`preprocessing.py:90`). -/
def sortFilesByName (files : List NVFile) : List NVFile :=
  insertionSortB (fun a b => decide (a.fname ≤ b.fname)) files

/-- The inner loop `for profile in unresolved:
maxes[profile.name] = max(num_val_frame[profile.name].max(), maxes[profile.name])`
(`preprocessing.py:105-106`), for one file. -/
def resolveScanFile (names : List String) (maxes : String → ℕ) (f : NVFile) :
    String → ℕ :=
  names.foldl
    (fun m name =>
      Function.update m name (max (pandasColMax (fileColumn f name)) (m name)))
    maxes

/-- The scanning loops of `resolveProfileMaxes` (`preprocessing.py:87-106`):
walk every `(label, dir)` pair, its sorted files, and update the running
maxima; the second component is the I/O trace (directories listed, files
read), in order. -/
def resolveScan (pairs : List (String × String)) (fs : PandasFS)
    (names : List String) : (String → ℕ) × List String :=
  pairs.foldl
    (fun acc pr =>
      (sortFilesByName (dirFiles fs pr.2)).foldl
        (fun acc2 f => (resolveScanFile names acc2.1 f, acc2.2 ++ [f.fname]))
        (acc.1, acc.2 ++ [pr.2]))
    ((fun _ => 0), [])

/-- `resolveProfileMaxes` (`preprocessing.py:65-109`): collect the profiles
with `max_size == -1 or None`; return at once (no scan) when there are
none; otherwise scan every source once and set each unresolved profile's
`max_size = int(np.ceil(maxes[name] * padding_multiplier))`.  Returns the
updated profiles and the scan trace. -/
def resolveProfileMaxes (object_profiles : List ObjectProfile)
    (label_dir_pairs : List (String × String)) (fs : PandasFS)
    (padding_multiplier : ℚ) : List ObjectProfile × List String :=
  let unresolved := object_profiles.filter (fun p => isUnresolved p)
  if unresolved.isEmpty then (object_profiles, [])
  else
    let names := unresolved.map (fun p => p.name)
    let scanned := resolveScan label_dir_pairs fs names
    (object_profiles.map (fun p =>
      if isUnresolved p then
        let resolved : Option ℤ :=
          some ⌈(scanned.1 p.name : ℚ) * padding_multiplier⌉
        { p with max_size := resolved }
      else p),
     scanned.2)

/-- Every per-entry count of one profile name over all sources, in scan
order. -/
def allEntryCounts (pairs : List (String × String)) (fs : PandasFS)
    (name : String) : List ℕ :=
  pairs.flatMap (fun pr =>
    (sortFilesByName (dirFiles fs pr.2)).flatMap (fun f => fileColumn f name))

/-- The observed maximum per-entry row count of one profile name over all
entries of all files of all source directories. -/
def observedTrueMax (pairs : List (String × String)) (fs : PandasFS)
    (name : String) : ℕ :=
  (allEntryCounts pairs fs name).foldl max 0

theorem foldl_max_eq (l : List ℕ) :
    ∀ a, l.foldl max a = max a (l.foldl max 0) := by
  induction l with
  | nil => intro a; simp
  | cons x l ih =>
    intro a
    simp only [List.foldl_cons]
    rw [ih (max a x), ih (max 0 x)]
    omega

theorem resolveScanFile_apply (names : List String) (maxes : String → ℕ)
    (f : NVFile) (name : String) :
    resolveScanFile names maxes f name =
      if name ∈ names then
        max (pandasColMax (fileColumn f name)) (maxes name)
      else maxes name := by
  unfold resolveScanFile
  induction names generalizing maxes with
  | nil => simp
  | cons n0 ns ih =>
    simp only [List.foldl_cons]
    rw [ih]
    by_cases h0 : name = n0
    · subst h0
      by_cases hmem : name ∈ ns
      · rw [if_pos hmem, if_pos (List.mem_cons_self name ns),
          Function.update_same]
        omega
      · rw [if_neg hmem, if_pos (List.mem_cons_self name ns),
          Function.update_same]
    · have hupd : Function.update maxes n0
          (max (pandasColMax (fileColumn f n0)) (maxes n0)) name =
          maxes name := Function.update_noteq h0 _ _
      by_cases hmem : name ∈ ns
      · rw [if_pos hmem, if_pos (List.mem_cons_of_mem n0 hmem), hupd]
      · rw [if_neg hmem, if_neg (by simp [h0, hmem]), hupd]

theorem filesFold_fst (names : List String) (files : List NVFile) :
    ∀ (mt : (String → ℕ) × List String),
      (files.foldl
        (fun acc2 f => (resolveScanFile names acc2.1 f, acc2.2 ++ [f.fname]))
        mt).1 =
      files.foldl (fun m f => resolveScanFile names m f) mt.1 := by
  induction files with
  | nil => intro mt; rfl
  | cons f fl ih => intro mt; exact ih _

theorem filesFold_apply (names : List String) (name : String)
    (hm : name ∈ names) (files : List NVFile) :
    ∀ (m : String → ℕ),
      (files.foldl (fun m f => resolveScanFile names m f) m) name =
      (files.flatMap (fun f => fileColumn f name)).foldl max (m name) := by
  induction files with
  | nil => intro m; rfl
  | cons f fl ih =>
    intro m
    simp only [List.foldl_cons, List.flatMap_cons, List.foldl_append]
    rw [ih, resolveScanFile_apply, if_pos hm]
    congr 1
    rw [foldl_max_eq]
    unfold pandasColMax
    omega

theorem resolveScan_fst (fs : PandasFS) (names : List String)
    (pairs : List (String × String)) :
    ∀ (mt : (String → ℕ) × List String),
      (pairs.foldl
        (fun acc pr =>
          (sortFilesByName (dirFiles fs pr.2)).foldl
            (fun acc2 f =>
              (resolveScanFile names acc2.1 f, acc2.2 ++ [f.fname]))
            (acc.1, acc.2 ++ [pr.2]))
        mt).1 =
      pairs.foldl
        (fun m pr =>
          (sortFilesByName (dirFiles fs pr.2)).foldl
            (fun m f => resolveScanFile names m f) m)
        mt.1 := by
  induction pairs with
  | nil => intro mt; rfl
  | cons pr rest ih =>
    intro mt
    simp only [List.foldl_cons]
    rw [ih]
    rw [filesFold_fst]

theorem pairsFold_apply (fs : PandasFS) (names : List String) (name : String)
    (hm : name ∈ names) (pairs : List (String × String)) :
    ∀ (m : String → ℕ),
      (pairs.foldl
        (fun m pr =>
          (sortFilesByName (dirFiles fs pr.2)).foldl
            (fun m f => resolveScanFile names m f) m)
        m) name =
      (pairs.flatMap (fun pr =>
        (sortFilesByName (dirFiles fs pr.2)).flatMap
          (fun f => fileColumn f name))).foldl max (m name) := by
  induction pairs with
  | nil => intro m; rfl
  | cons pr rest ih =>
    intro m
    simp only [List.foldl_cons, List.flatMap_cons, List.foldl_append]
    rw [ih, filesFold_apply names name hm]

theorem resolveScan_apply (pairs : List (String × String)) (fs : PandasFS)
    (names : List String) (name : String) (hm : name ∈ names) :
    (resolveScan pairs fs names).1 name = observedTrueMax pairs fs name := by
  unfold resolveScan observedTrueMax allEntryCounts
  rw [resolveScan_fst]
  exact pairsFold_apply fs names name hm pairs (fun _ => 0)

/-- Claim C5: `resolveProfileMaxes` sets
`max_size = ceil(observed_max * padding_multiplier)` for exactly those
profiles whose `max_size` is unresolved (`-1` or unset), where
`observed_max` is the running maximum of that profile's per-entry row count
over all entries of all files of all source directories; it performs no
source scanning at all when no profile needs resolution (empty scan trace,
profiles untouched); afterwards no profile has an unresolved `max_size`
(and each resolved value equals — hence is at least —
`ceil(observed_max * multiplier)`).  The data hypotheses state that every
referenced `NumValues` column exists and is non-empty, matching what a
non-crashing pandas run requires. -/
theorem C5_size_resolver (object_profiles : List ObjectProfile)
    (label_dir_pairs : List (String × String)) (fs : PandasFS)
    (padding_multiplier : ℚ) (hmult : 0 ≤ padding_multiplier)
    (hdata : ∀ pr ∈ label_dir_pairs, ∀ f ∈ dirFiles fs pr.2,
      ∀ p ∈ object_profiles, isUnresolved p = true →
        (f.numValues.lookup p.name).isSome = true ∧ fileColumn f p.name ≠ []) :
    (resolveProfileMaxes object_profiles label_dir_pairs fs
        padding_multiplier).1 =
      object_profiles.map (fun p =>
        if isUnresolved p then
          { p with max_size := some (Int.ceil
              ((observedTrueMax label_dir_pairs fs p.name : ℚ) *
                padding_multiplier)) }
        else p) ∧
    (object_profiles.filter (fun p => isUnresolved p) = [] →
      resolveProfileMaxes object_profiles label_dir_pairs fs
        padding_multiplier = (object_profiles, [])) ∧
    (∀ p' ∈ (resolveProfileMaxes object_profiles label_dir_pairs fs
        padding_multiplier).1, isUnresolved p' = false) := by
  have hmap :
      (resolveProfileMaxes object_profiles label_dir_pairs fs
        padding_multiplier).1 =
      object_profiles.map (fun p =>
        if isUnresolved p then
          { p with max_size := some (Int.ceil
              ((observedTrueMax label_dir_pairs fs p.name : ℚ) *
                padding_multiplier)) }
        else p) := by
    by_cases hempty : object_profiles.filter (fun p => isUnresolved p) = []
    · have hnone : ∀ p ∈ object_profiles, isUnresolved p = false := by
        intro p hp
        by_contra hne
        have hmemf : p ∈ object_profiles.filter (fun p => isUnresolved p) :=
          List.mem_filter.2 ⟨hp, by simpa using hne⟩
        rw [hempty] at hmemf
        exact absurd hmemf (List.not_mem_nil p)
      have h1 : (resolveProfileMaxes object_profiles label_dir_pairs fs
          padding_multiplier).1 = object_profiles := by
        simp only [resolveProfileMaxes, hempty, List.isEmpty_nil, ite_true]
      rw [h1]
      symm
      calc object_profiles.map (fun p =>
            if isUnresolved p then
              { p with max_size := some (Int.ceil
                  ((observedTrueMax label_dir_pairs fs p.name : ℚ) *
                    padding_multiplier)) }
            else p)
          = object_profiles.map id :=
            List.map_congr_left (fun p hp => by simp [hnone p hp])
        _ = object_profiles := List.map_id object_profiles
    · have hne : (object_profiles.filter
          (fun p => isUnresolved p)).isEmpty = false := by
        simpa [List.isEmpty_iff] using hempty
      simp only [resolveProfileMaxes, hne, Bool.false_eq_true, if_false]
      refine List.map_congr_left (fun p hp => ?_)
      by_cases hu : isUnresolved p = true
      · simp only [hu, ite_true]
        have hname : p.name ∈ (object_profiles.filter
            (fun p => isUnresolved p)).map (fun p => p.name) :=
          List.mem_map_of_mem _ (List.mem_filter.2 ⟨hp, hu⟩)
        rw [resolveScan_apply _ _ _ _ hname]
      · simp [hu]
  refine ⟨hmap, ?_, ?_⟩
  · intro hempty
    simp only [resolveProfileMaxes, hempty, List.isEmpty_nil, ite_true]
  · intro p' hp'
    rw [hmap] at hp'
    rcases List.mem_map.1 hp' with ⟨p, hp, rfl⟩
    by_cases hu : isUnresolved p = true
    · simp only [hu, ite_true]
      have hc : 0 ≤ Int.ceil
          ((observedTrueMax label_dir_pairs fs p.name : ℚ) *
            padding_multiplier) :=
        Int.ceil_nonneg (mul_nonneg (by positivity) hmult)
      simp only [isUnresolved]
      simp only [decide_eq_false_iff_not, not_or]
      constructor
      · intro hsome
        rw [Option.some.injEq] at hsome
        omega
      · intro hnone
        exact Option.noConfusion hnone
    · simp only [hu, ite_false]
      simpa using hu

/-- A concrete unresolved profile for the C5 witness. -/
def witProfileC5a : ObjectProfile :=
  ⟨"a", some (-1), none, PyBoolish.bool true, none, PyBoolish.bool true,
    none, false, PyAddCols.pyNone, none⟩

/-- A concrete already-resolved profile for the C5 witness. -/
def witProfileC5b : ObjectProfile :=
  ⟨"b", some 5, none, PyBoolish.bool true, none, PyBoolish.bool true,
    none, false, PyAddCols.pyNone, none⟩

/-- The C5 witness filesystem: one directory, one file, columns `a` (counts
2 and 3) and `b` (count 7). -/
def witFsC5 : PandasFS :=
  [("d", [⟨"f1", [("a", [2, 3]), ("b", [7])]⟩])]

/-- Witness for C5: the unresolved profile gets
`max_size = ceil(3 * 1) = 3`, the resolved one is untouched. -/
theorem C5_size_resolver_witness :
    (resolveProfileMaxes [witProfileC5a, witProfileC5b] [("sig", "d")]
        witFsC5 1).1 =
      [witProfileC5a, witProfileC5b].map (fun p =>
        if isUnresolved p then
          { p with max_size := some (Int.ceil
              ((observedTrueMax [("sig", "d")] witFsC5 p.name : ℚ) * 1)) }
        else p) ∧
    (([witProfileC5a, witProfileC5b] : List ObjectProfile).filter
        (fun p => isUnresolved p) = [] →
      resolveProfileMaxes [witProfileC5a, witProfileC5b] [("sig", "d")]
        witFsC5 1 = ([witProfileC5a, witProfileC5b], [])) ∧
    (∀ p' ∈ (resolveProfileMaxes [witProfileC5a, witProfileC5b]
        [("sig", "d")] witFsC5 1).1, isUnresolved p' = false) :=
  C5_size_resolver [witProfileC5a, witProfileC5b] [("sig", "d")] witFsC5 1
    (by with_unfolding_all decide) (by with_unfolding_all decide)

/-! ### Claim C7: duplicate labels fail before any file I/O
(`preprocessFromPandas_label_dir_pairs`, `preprocessing.py:205-236`)

The function body is modelled as its validation prefix (lines 205-236, in
source order) followed by the file-reading phase; the latter is abstracted
as `readPhase`, an arbitrary computation whose I/O trace is its second
component.  The `ValueError` raised by the source is the realisation of
the spec's `ConfigurationError`. -/

/-- `duplicates = list(set([x for x in labels if labels.count(x) > 1]))`
(`preprocessing.py:206`). -/
def duplicates (labels : List String) : List String :=
  (labels.filter (fun x => 1 < labels.count x)).dedup

/-- The per-profile checks (`preprocessing.py:230-236`): unresolved
`max_size` first, then every `addColumns` key must be in `observ_types`.
(The dict-decoding branch, lines 218-229, only reconstitutes profiles
passed as plain dicts; the embedding's profiles are already
`ObjectProfile` values.) -/
def profileCheckErr (p : ObjectProfile) (observ_types : List String) :
    Option String :=
  if isUnresolved p then
    some "ObjectProfile max_sizes must be resolved before preprocessing."
  else
    match p.addColumns with
    | PyAddCols.pyDict d =>
      if d.any (fun kv => !(observ_types.contains kv.1)) then
        some "addColumn Key must be in observ_types"
      else none
    | _ => none

/-- The validation prefix of `preprocessFromPandas_label_dir_pairs`
(`preprocessing.py:205-236`), in source order: duplicate labels, the
reserved `Entry` column, then the per-profile checks. -/
def preprocessChecks (label_dir_pairs : List (String × String))
    (observ_types : List String) (object_profiles : List ObjectProfile) :
    Except String Unit :=
  if duplicates (label_dir_pairs.map Prod.fst) ≠ [] then
    Except.error "Cannot have duplicate labels"
  else if "Entry" ∈ observ_types then
    Except.error
      "Using Entry in observ_types can result in skewed training results."
  else
    match object_profiles.findSome?
        (fun p => profileCheckErr p observ_types) with
    | some e => Except.error e
    | none => Except.ok ()

/-- `preprocessFromPandas_label_dir_pairs` at the top level: run the
validation prefix (no I/O, empty trace); only on success enter the
file-reading phase. -/
def preprocessFromPandas_label_dir_pairs {γ : Type}
    (label_dir_pairs : List (String × String)) (start samples_per_label : ℕ)
    (object_profiles : List ObjectProfile) (observ_types : List String)
    (readPhase : ℕ → ℕ → Except String γ × List String) :
    Except String γ × List String :=
  match preprocessChecks label_dir_pairs observ_types object_profiles with
  | Except.error e => (Except.error e, [])
  | Except.ok _ => readPhase start samples_per_label

/-- Claim C7: if the requested label-source pairs contain any duplicate
label, `preprocessFromPandas_label_dir_pairs` always fails with the
duplicate-label `ValueError` (the spec's `ConfigurationError`), and the
failure is raised before any file I/O is performed: whatever the reading
phase would have done, the result is the error with an empty I/O trace. -/
theorem C7_duplicate_labels_before_io {γ : Type}
    (label_dir_pairs : List (String × String))
    (start samples_per_label : ℕ) (object_profiles : List ObjectProfile)
    (observ_types : List String)
    (readPhase : ℕ → ℕ → Except String γ × List String)
    (l : String) (hdup : 1 < (label_dir_pairs.map Prod.fst).count l) :
    preprocessFromPandas_label_dir_pairs label_dir_pairs start
        samples_per_label object_profiles observ_types readPhase =
      (Except.error "Cannot have duplicate labels", []) := by
  have hl : l ∈ label_dir_pairs.map Prod.fst := by
    by_contra hnot
    rw [List.count_eq_zero_of_not_mem hnot] at hdup
    omega
  have hmem : l ∈ duplicates (label_dir_pairs.map Prod.fst) := by
    unfold duplicates
    rw [List.mem_dedup]
    exact List.mem_filter.2 ⟨hl, by simpa using hdup⟩
  have hne : duplicates (label_dir_pairs.map Prod.fst) ≠ [] :=
    List.ne_nil_of_mem hmem
  unfold preprocessFromPandas_label_dir_pairs preprocessChecks
  rw [if_pos hne]

/-- Witness for C7: two pairs sharing the label `"a"`; the reading phase
would record I/O, but the duplicate check fires first with an empty trace. -/
theorem C7_duplicate_labels_before_io_witness :
    preprocessFromPandas_label_dir_pairs [("a", "d1"), ("a", "d2")] 0 5 []
        ["E"] (fun _ _ => (Except.ok (0 : ℕ), ["read d1"])) =
      (Except.error "Cannot have duplicate labels", []) :=
  C7_duplicate_labels_before_io [("a", "d1"), ("a", "d2")] 0 5 [] ["E"]
    (fun _ _ => (Except.ok (0 : ℕ), ["read d1"])) "a"
    (by with_unfolding_all decide)

/-! ### Claim C8: export/import round trips (`XY_to_CSV` / `XY_from_CSV`,
`preprocessing.py:700-756`; `XY_to_pickle` / `XY_from_pickle`,
`preprocessing.py:759-807`)

A numpy array is its shape plus row-major flattened data.  Cell values are
exact: `np.save` writes a dense binary format and the `%.18e` text format
written by `np.savetxt` carries enough digits to round-trip an IEEE double.
The CSV header is `"#Shape: " + str(shape)`; re-import splits the header
line on `","` and parses each chunk with `int(re.sub("\D", "", s))`.  We
model the header by what survives that pipeline: for each comma-chunk,
the number whose digits it carries, or `none` for a chunk with no digits —
`str` of a 1-element Python tuple is `"(n,)"`, whose trailing chunk `")"`
has no digits, so `int("")` raises `ValueError` on import. -/

/-- A numpy array: shape and row-major data. -/
structure NpArray where
  shape : List ℕ
  data : List ℚ
deriving DecidableEq

/-- The comma-chunks of `str(shape)` after digit stripping: `"()"` is one
digit-free chunk; `"(n,)"` is the digits of `n` then a digit-free chunk;
`"(a, b, ...)"` gives exactly one number per chunk.  The `"#Shape: ("`
prefix carries no digits and lands in the first chunk. -/
def shapeChunks : List ℕ → List (Option ℕ)
  | [] => [none]
  | [n] => [some n, none]
  | l => l.map some

/-- One exported CSV file (`writeit`, `preprocessing.py:714-721`): the
`#Shape:` header, then the array reshaped to `(shape[0], prod(shape[1:]))`
and written row by row — the flat row-major data is unchanged. -/
structure CsvFile where
  headerChunks : List (Option ℕ)
  cells : List ℚ
deriving DecidableEq

/-- Export one array to CSV. -/
def XY_to_CSV_one (a : NpArray) : CsvFile :=
  ⟨shapeChunks a.shape, a.data⟩

/-- `int(re.sub("\D", "", s))` over the header chunks: a digit-free chunk
raises `ValueError` (`int("")`). -/
def parseChunks : List (Option ℕ) → Except String (List ℕ)
  | [] => Except.ok []
  | none :: _ => Except.error "invalid literal for int() with base 10"
  | some n :: rest => (parseChunks rest).map (fun l => n :: l)

/-- `readit` in `XY_from_CSV` (`preprocessing.py:733-738`): parse the shape
from the header, read the cells, `np.reshape(arr, shape)` — which requires
the cell count to equal the shape's product. -/
def XY_from_CSV_one (f : CsvFile) : Except String NpArray :=
  match parseChunks f.headerChunks with
  | Except.error e => Except.error e
  | Except.ok dims =>
    if f.cells.length = dims.prod then Except.ok ⟨dims, f.cells⟩
    else Except.error "cannot reshape array"

/-- `XY_to_CSV` for one array per side (the source wraps a bare array into
a singleton list and writes `X_0.csv` / `Y_0.csv`). -/
def XY_to_CSV (X Y : NpArray) : CsvFile × CsvFile :=
  (XY_to_CSV_one X, XY_to_CSV_one Y)

/-- `XY_from_CSV` for one file per side, reading `X/` then `Y/`. -/
def XY_from_CSV (fX fY : CsvFile) : Except String (NpArray × NpArray) :=
  match XY_from_CSV_one fX with
  | Except.error e => Except.error e
  | Except.ok X =>
    match XY_from_CSV_one fY with
    | Except.error e => Except.error e
    | Except.ok Y => Except.ok (X, Y)

/-- An `.npy` file as written by `np.save` (`preprocessing.py:773-776`):
the dense binary format stores the shape header and the raw data. -/
structure NpyFile where
  shape : List ℕ
  raw : List ℚ
deriving DecidableEq

/-- `XY_to_pickle` for one array per side (`np.save`). -/
def XY_to_pickle (X Y : NpArray) : NpyFile × NpyFile :=
  (⟨X.shape, X.data⟩, ⟨Y.shape, Y.data⟩)

/-- `XY_from_pickle` for one file per side (`np.load`). -/
def XY_from_pickle (fX fY : NpyFile) : NpArray × NpArray :=
  (⟨fX.shape, fX.raw⟩, ⟨fY.shape, fY.raw⟩)

theorem parseChunks_map_some (l : List ℕ) :
    parseChunks (l.map some) = Except.ok l := by
  induction l with
  | nil => rfl
  | cons n rest ih => simp [parseChunks, ih, Except.map]

theorem shapeChunks_of_rank_ge_two (shape : List ℕ)
    (h : 2 ≤ shape.length) : shapeChunks shape = shape.map some := by
  match shape, h with
  | a :: b :: rest, _ => rfl

/-- Counterexample to C8 as stated: exporting a pair whose `X` is the 1-D
array of shape `(2,)` with values `[5, 7]` writes the header
`#Shape: (2,)`; re-importing splits it into `["#Shape: (2", ")"]`, and
`int(re.sub("\D", "", ")"))` is `int("")`, which raises `ValueError` —
the CSV round trip does not return the original arrays. -/
theorem C8_counterexample :
    XY_from_CSV (XY_to_CSV ⟨[2], [5, 7]⟩ ⟨[2, 1], [1, 0]⟩).1
        (XY_to_CSV ⟨[2], [5, 7]⟩ ⟨[2, 1], [1, 0]⟩).2 =
      Except.error "invalid literal for int() with base 10" := by
  with_unfolding_all rfl

/-- Claim C8 (amended): exporting with `XY_to_pickle` and re-importing with
`XY_from_pickle` yields arrays identical in shape and bit-identical in
values for every `(X, Y)` pair; exporting with `XY_to_CSV` and re-importing
with `XY_from_CSV` does so for every pair of well-formed arrays of rank at
least 2 — a rank-1 array's header `"(n,)"` leaves a digit-free chunk whose
`int("")` parse fails on import. -/
theorem C8_round_trip (X Y : NpArray)
    (hx1 : 2 ≤ X.shape.length) (hx2 : X.data.length = X.shape.prod)
    (hy1 : 2 ≤ Y.shape.length) (hy2 : Y.data.length = Y.shape.prod) :
    XY_from_CSV (XY_to_CSV X Y).1 (XY_to_CSV X Y).2 = Except.ok (X, Y) ∧
    (∀ A B : NpArray,
      XY_from_pickle (XY_to_pickle A B).1 (XY_to_pickle A B).2 = (A, B)) := by
  constructor
  · have hx : XY_from_CSV_one (XY_to_CSV_one X) = Except.ok X := by
      unfold XY_from_CSV_one XY_to_CSV_one
      simp only [shapeChunks_of_rank_ge_two X.shape hx1, parseChunks_map_some]
      rw [if_pos hx2]
    have hy : XY_from_CSV_one (XY_to_CSV_one Y) = Except.ok Y := by
      unfold XY_from_CSV_one XY_to_CSV_one
      simp only [shapeChunks_of_rank_ge_two Y.shape hy1, parseChunks_map_some]
      rw [if_pos hy2]
    unfold XY_from_CSV XY_to_CSV
    rw [hx, hy]
  · intro A B
    rfl

/-- Witness for the amended C8 on concrete 2-D arrays. -/
theorem C8_round_trip_witness :
    XY_from_CSV (XY_to_CSV ⟨[2, 2], [1, 2, 3, 4]⟩ ⟨[2, 1], [1, 0]⟩).1
        (XY_to_CSV ⟨[2, 2], [1, 2, 3, 4]⟩ ⟨[2, 1], [1, 0]⟩).2 =
      Except.ok (⟨[2, 2], [1, 2, 3, 4]⟩, ⟨[2, 1], [1, 0]⟩) ∧
    (∀ A B : NpArray,
      XY_from_pickle (XY_to_pickle A B).1 (XY_to_pickle A B).2 = (A, B)) :=
  C8_round_trip ⟨[2, 2], [1, 2, 3, 4]⟩ ⟨[2, 1], [1, 0]⟩ (by decide)
    (by with_unfolding_all decide) (by decide) (by with_unfolding_all decide)

/-! ### Claim C9: `getGensDefaultFormat` ignores its `megabytes` argument
(`preprocessing.py:425-470`; `strideFromTargetSize`,
`preprocessing.py:477-481`) -/

/-- `strideFromTargetSize` (`preprocessing.py:477-481`):
`megabytes_per_sample = sum(o.max_size for o in object_profiles) *
len(observ_types) * 24 / 1e6`; the stride is
`int(megabytes / megabytes_per_sample)`.  The `num_labels` argument is
normalised (a list is replaced by its length) but never used by the
formula. -/
def strideFromTargetSize (object_profiles : List ObjectProfile)
    (num_labels : ℕ) (observ_types : List String) (megabytes : ℚ) : ℤ :=
  let megabytes_per_sample : ℚ :=
    ((object_profiles.map (fun o => ((o.max_size.getD 0 : ℤ) : ℚ))).sum) *
      (observ_types.length : ℚ) * 24 / 1000000
  pyInt (megabytes / megabytes_per_sample)

/-- The planning part of `getGensDefaultFormat`
(`preprocessing.py:451-463`): the stride — computed by
`strideFromTargetSize(object_profiles, label_dir_pairs, observ_types,
megabytes=500)`, with a hard-coded 500 instead of the function's own
`megabytes` parameter — the `(start, num)` split windows, and per split
the chunk windows handed to `procsFrom_label_dir_pairs`. -/
def getGensDefaultFormat_plan (splits : List ℚ) (length : ℚ)
    (object_profiles : List ObjectProfile)
    (label_dir_pairs : List (String × String)) (observ_types : List String)
    (megabytes : ℚ) : ℤ × Except String (List (List (ℕ × ℕ))) :=
  let stride := strideFromTargetSize object_profiles label_dir_pairs.length
    observ_types 500
  let SNs := start_num_fromSplits splits length
  (stride,
   SNs.map (fun sns => sns.map (fun s =>
     procsFrom_label_dir_pairs_windows s.1.toNat s.2.toNat stride.toNat)))

/-- Claim C9: the stride computed inside `getGensDefaultFormat`, and
therefore the set of chunk windows it builds, is independent of its
`megabytes` argument: two invocations differing only in `megabytes`
produce identical plans, and the internal stride computation receives the
fixed 500 MB target. -/
theorem C9_megabytes_ignored (splits : List ℚ) (length : ℚ)
    (object_profiles : List ObjectProfile)
    (label_dir_pairs : List (String × String)) (observ_types : List String)
    (m1 m2 : ℚ) :
    getGensDefaultFormat_plan splits length object_profiles label_dir_pairs
        observ_types m1 =
      getGensDefaultFormat_plan splits length object_profiles
        label_dir_pairs observ_types m2 ∧
    (getGensDefaultFormat_plan splits length object_profiles label_dir_pairs
        observ_types m1).1 =
      strideFromTargetSize object_profiles label_dir_pairs.length
        observ_types 500 :=
  ⟨rfl, rfl⟩

/-! ### Claim C10: the `ObjectProfile` constructor -/

/-- Claim C10: the `ObjectProfile` constructor raises `ValueError` exactly
when `max_size < -1` or when `addColumns` is neither `None` nor a
dictionary; in particular `max_size = -1` (the unresolved sentinel) and
`max_size = 0` are accepted; and on success every constructor argument is
stored on the instance unchanged. -/
theorem C10_object_profile_init (name : String) (max_size : ℤ)
    (pcs : Option (List String)) (pasc : PyBoolish)
    (scs : Option (List String)) (sasc : PyBoolish) (q : Option String)
    (sh : Bool) (ac : PyAddCols) (punct : Option ℚ) :
    ((∃ e, ObjectProfile.init name max_size pcs pasc scs sasc q sh ac punct =
        Except.error e) ↔ (max_size < -1 ∨ ac = PyAddCols.nonDict)) ∧
    (∀ p, ObjectProfile.init name max_size pcs pasc scs sasc q sh ac punct =
        Except.ok p →
      p.name = name ∧ p.max_size = some max_size ∧
      p.pre_sort_columns = pcs ∧ p.pre_sort_ascending = pasc ∧
      p.sort_columns = scs ∧ p.sort_ascending = sasc ∧ p.query = q ∧
      p.shuffle = sh ∧ p.addColumns = ac ∧ p.punctuation = punct) ∧
    (∃ p, ObjectProfile.init name (-1) pcs pasc scs sasc q sh
        PyAddCols.pyNone punct = Except.ok p) ∧
    (∃ p, ObjectProfile.init name 0 pcs pasc scs sasc q sh
        PyAddCols.pyNone punct = Except.ok p) := by
  refine ⟨⟨?_, ?_⟩, ?_, ?_, ?_⟩
  · rintro ⟨e, he⟩
    by_contra hnot
    push_neg at hnot
    rcases hnot with ⟨hms, hac⟩
    unfold ObjectProfile.init at he
    rw [if_neg (by omega)] at he
    cases ac with
    | nonDict => exact hac rfl
    | pyNone => exact Except.noConfusion he
    | pyDict d => exact Except.noConfusion he
  · intro h
    unfold ObjectProfile.init
    rcases h with hms | hac
    · exact ⟨_, by rw [if_pos hms]⟩
    · subst hac
      by_cases hms : max_size < -1
      · exact ⟨_, by rw [if_pos hms]⟩
      · exact ⟨_, by rw [if_neg hms]⟩
  · intro p hp
    unfold ObjectProfile.init at hp
    by_cases hms : max_size < -1
    · rw [if_pos hms] at hp
      exact Except.noConfusion hp
    · rw [if_neg hms] at hp
      cases ac with
      | nonDict => exact Except.noConfusion hp
      | pyNone =>
        injection hp with h
        subst h
        exact ⟨rfl, rfl, rfl, rfl, rfl, rfl, rfl, rfl, rfl, rfl⟩
      | pyDict d =>
        injection hp with h
        subst h
        exact ⟨rfl, rfl, rfl, rfl, rfl, rfl, rfl, rfl, rfl, rfl⟩
  · exact ⟨_, by unfold ObjectProfile.init; rw [if_neg (by omega)]⟩
  · exact ⟨_, by unfold ObjectProfile.init; rw [if_neg (by omega)]⟩

/-- Witness for C10 at concrete arguments (accepting `-1` and `0`, and a
successful construction storing the fields). -/
theorem C10_object_profile_init_witness :
    ((∃ e, ObjectProfile.init "e" 3 none (PyBoolish.bool true) none
        (PyBoolish.bool true) none false PyAddCols.pyNone (some 9) =
        Except.error e) ↔ ((3 : ℤ) < -1 ∨ PyAddCols.pyNone = PyAddCols.nonDict)) ∧
    (∀ p, ObjectProfile.init "e" 3 none (PyBoolish.bool true) none
        (PyBoolish.bool true) none false PyAddCols.pyNone (some 9) =
        Except.ok p →
      p.name = "e" ∧ p.max_size = some 3 ∧
      p.pre_sort_columns = none ∧ p.pre_sort_ascending = PyBoolish.bool true ∧
      p.sort_columns = none ∧ p.sort_ascending = PyBoolish.bool true ∧
      p.query = none ∧ p.shuffle = false ∧ p.addColumns = PyAddCols.pyNone ∧
      p.punctuation = some 9) ∧
    (∃ p, ObjectProfile.init "e" (-1) none (PyBoolish.bool true) none
        (PyBoolish.bool true) none false PyAddCols.pyNone (some 9) =
        Except.ok p) ∧
    (∃ p, ObjectProfile.init "e" 0 none (PyBoolish.bool true) none
        (PyBoolish.bool true) none false PyAddCols.pyNone (some 9) =
        Except.ok p) :=
  C10_object_profile_init "e" 3 none (PyBoolish.bool true) none
    (PyBoolish.bool true) none false PyAddCols.pyNone (some 9)

end CMSDL
